import Mathlib

/-!
Verification of the address-normalization + cached, fallback-chained
geocoding pipeline of `scripts/geocode_properties_enhanced.py`
(class `SeizedPropertyGeocoder` and class `RateLimitedGeocoder`).

The Python code is shallowly embedded:
* strings are Lean `String` / `List Char`;
* every `re.sub` call is executed by a small backtracking regex engine
  (`Mariupol.RE`, `Mariupol.pySub`) that mirrors the Python `re` semantics
  actually exercised by the script: greedy quantifiers with backtracking,
  leftmost non-overlapping substitution, word boundaries, negative
  lookahead, capture groups referenced from the replacement, case
  insensitivity via lower-case folding, and the CPython >= 3.7 rule for
  empty matches (replace, copy one character, continue);
* Python `dict` objects are association lists in insertion order
  (CPython >= 3.7 iteration order);
* Python `set` iteration order (hash-dependent) is a parameter `enum`;
* the network geocoder is an oracle `client : Nat -> GeoResp`, the
  per-attempt behaviour of the upstream service inside
  `RateLimitedGeocoder.geocode` is an oracle `Nat -> Attempt`, and
  `random.uniform(0, 1)` is an oracle `Nat -> Rat`;
* float coordinates are modelled as rationals;
* a Python exception that escapes a function is `Except.error`;
* wall-clock effects (rate-limit sleeps, backoff sleeps) are recorded as
  data (delay lists), not timed.
-/

set_option maxRecDepth 8192

namespace Mariupol

/-- Lower-case mapping mirroring Python `str.lower()` on the character
repertoire used by the geocoder: ASCII letters, Russian Cyrillic А..Я and
Ё, Ukrainian І Ї Є Ґ.  Other characters are fixed points. -/
def pyLowerChar (c : Char) : Char :=
  let n := c.toNat
  if 65 ≤ n ∧ n ≤ 90 then Char.ofNat (n + 32)
  else if 1040 ≤ n ∧ n ≤ 1071 then Char.ofNat (n + 32)
  else if n = 1025 then Char.ofNat 1105
  else if n = 1028 then Char.ofNat 1108
  else if n = 1030 then Char.ofNat 1110
  else if n = 1031 then Char.ofNat 1111
  else if n = 1168 then Char.ofNat 1169
  else c

/-- Upper-case mapping mirroring Python `str.upper()` on the same
repertoire (used by `str.title()`). -/
def pyUpperChar (c : Char) : Char :=
  let n := c.toNat
  if 97 ≤ n ∧ n ≤ 122 then Char.ofNat (n - 32)
  else if 1072 ≤ n ∧ n ≤ 1103 then Char.ofNat (n - 32)
  else if n = 1105 then Char.ofNat 1025
  else if n = 1108 then Char.ofNat 1028
  else if n = 1110 then Char.ofNat 1030
  else if n = 1111 then Char.ofNat 1031
  else if n = 1169 then Char.ofNat 1168
  else c

/-- Python `\s` (the whitespace characters occurring in the data). -/
def isSpaceChar (c : Char) : Bool :=
  c == ' ' || c == '\t' || c == '\n' || c == '\x0d' || c == '\x0b' || c == '\x0c'

/-- Python `\d` (ASCII digits in the data). -/
def isDigitChar (c : Char) : Bool :=
  let n := c.toNat
  decide (48 ≤ n ∧ n ≤ 57)

/-- Python `\w` on the repertoire in use: ASCII alphanumerics, `_`, and the
Cyrillic block U+0400..U+04FF (which contains all Russian and Ukrainian
letters of the data, including ё І Ї Є Ґ). -/
def isWordChar (c : Char) : Bool :=
  let n := c.toNat
  decide ((48 ≤ n ∧ n ≤ 57) ∨ (65 ≤ n ∧ n ≤ 90) ∨ (97 ≤ n ∧ n ≤ 122) ∨
    n = 95 ∨ (1024 ≤ n ∧ n ≤ 1279))

/-- Cased letter, as used by CPython `str.title()` to decide word starts. -/
def isCasedChar (c : Char) : Bool :=
  let n := c.toNat
  decide ((65 ≤ n ∧ n ≤ 90) ∨ (97 ≤ n ∧ n ≤ 122) ∨ (1024 ≤ n ∧ n ≤ 1279))

def lowerL (l : List Char) : List Char := l.map pyLowerChar

def pyLowerStr (s : String) : String := String.mk (lowerL s.data)

/-- Python `str.strip()` (no arguments): drop whitespace at both ends. -/
def stripL (l : List Char) : List Char :=
  ((l.dropWhile isSpaceChar).reverse.dropWhile isSpaceChar).reverse

def pyStrip (s : String) : String := String.mk (stripL s.data)

/-- Auxiliary scan for substring containment. -/
def containsAux (sub : List Char) : List Char → Bool
  | [] => sub.isEmpty
  | c :: cs => sub.isPrefixOf (c :: cs) || containsAux sub cs

/-- Python `sub in hay` on strings. -/
def containsL (hay sub : List Char) : Bool :=
  sub.isEmpty || containsAux sub hay

def pyContains (hay sub : String) : Bool := containsL hay.data sub.data

/-- Python `str.replace(pat, rep)`: replace all non-overlapping occurrences
left to right (fuel = length of the remaining input; every step consumes at
least one character, so the fuel suffices).  The script never calls
`replace` with an empty pattern. -/
def replaceFuel (pat rep : List Char) : Nat → List Char → List Char
  | 0, l => l
  | _ + 1, [] => []
  | n + 1, c :: cs =>
    if pat.isEmpty then c :: cs
    else if pat.isPrefixOf (c :: cs) then
      rep ++ replaceFuel pat rep n ((c :: cs).drop pat.length)
    else c :: replaceFuel pat rep n cs

def pyReplace (s pat rep : String) : String :=
  String.mk (replaceFuel pat.data rep.data s.data.length s.data)

/-- Python `str.startswith`. -/
def pyStartsWith (s pre : String) : Bool := pre.data.isPrefixOf s.data

/-- Python `str.split()` with no arguments: whitespace-separated words. -/
def wordsAux (acc : List Char) : List Char → List (List Char)
  | [] => if acc.isEmpty then [] else [acc.reverse]
  | c :: cs =>
    if isSpaceChar c then
      if acc.isEmpty then wordsAux [] cs else acc.reverse :: wordsAux [] cs
    else wordsAux (c :: acc) cs

def joinSpace : List (List Char) → List Char
  | [] => []
  | [w] => w
  | w :: ws => w ++ ' ' :: joinSpace ws

/-- Python `' '.join(v.split())`. -/
def normWS (s : String) : String := String.mk (joinSpace (wordsAux [] s.data))

/-- CPython `str.title()`: a cased character is upper-cased when the
previous character is not cased, lower-cased otherwise. -/
def titleAux (prevCased : Bool) : List Char → List Char
  | [] => []
  | c :: cs =>
    if isCasedChar c then
      (if prevCased then pyLowerChar c else pyUpperChar c) :: titleAux true cs
    else c :: titleAux false cs

def pyTitle (s : String) : String := String.mk (titleAux false s.data)

/-! ### A regex engine for the `re` subset used by the script -/

/-- Regular expressions: the constructs occurring in the script's patterns.
`cls` is a single-character class, `grp` a numbered capture group, `wordB`
the `\b` assertion, `nla` a negative lookahead `(?!...)`, `bos`/`eos` the
`^`/`$` anchors. -/
inductive RE where
  | eps : RE
  | cls : (Char → Bool) → RE
  | seq : RE → RE → RE
  | alt : RE → RE → RE
  | star : RE → RE
  | opt : RE → RE
  | grp : Nat → RE → RE
  | wordB : RE
  | nla : RE → RE
  | bos : RE
  | eos : RE

/-- Matcher state: consumed prefix (reversed), remaining input, captured
group texts (latest binding first). -/
structure MSt where
  rev : List Char
  rest : List Char
  caps : List (Nat × List Char)

/-- Backtracking matcher in continuation-passing style.  Alternatives are
tried left first and quantifiers are greedy, as in Python `re`.  The fuel
bounds the call depth; it is chosen large enough for all concrete
evaluations in this file (the star bodies of the script's patterns are
single-character classes, so a star iteration always consumes input). -/
def reM : Nat → RE → MSt → (MSt → Option MSt) → Option MSt
  | 0, _, _, _ => none
  | n + 1, re, st, k =>
    match re with
    | RE.eps => k st
    | RE.cls p =>
      match st.rest with
      | [] => none
      | c :: rs => if p c then k ⟨c :: st.rev, rs, st.caps⟩ else none
    | RE.seq a b => reM n a st (fun st1 => reM n b st1 k)
    | RE.alt a b =>
      match reM n a st k with
      | some r => some r
      | none => reM n b st k
    | RE.opt r =>
      match reM n r st k with
      | some res => some res
      | none => k st
    | RE.star r =>
      match reM n r st (fun st1 =>
        if st.rev.length < st1.rev.length then reM n (RE.star r) st1 k
        else k st1) with
      | some res => some res
      | none => k st
    | RE.grp i r =>
      reM n r st (fun st1 =>
        k ⟨st1.rev, st1.rest,
           (i, (st1.rev.take (st1.rev.length - st.rev.length)).reverse) :: st1.caps⟩)
    | RE.wordB =>
      let a := match st.rev with | [] => false | c :: _ => isWordChar c
      let b := match st.rest with | [] => false | c :: _ => isWordChar c
      if a != b then k st else none
    | RE.nla r =>
      match reM n r st some with
      | some _ => none
      | none => k st
    | RE.bos => if st.rev.isEmpty then k st else none
    | RE.eos => if st.rest.isEmpty then k st else none

/-- Fuel for a single match attempt. -/
def matchFuel : Nat := 800

/-- Leftmost match at or after the current position.  Returns the skipped
characters (in order) and the matcher state at the end of the match. -/
def searchAt (re : RE) (rev : List Char) : List Char → Option (List Char × MSt)
  | [] =>
    match reM matchFuel re ⟨rev, [], []⟩ some with
    | some st => some ([], st)
    | none => none
  | c :: rs =>
    match reM matchFuel re ⟨rev, c :: rs, []⟩ some with
    | some st => some ([], st)
    | none =>
      match searchAt re (c :: rev) rs with
      | some (sk, st) => some (c :: sk, st)
      | none => none

/-- One item of a replacement template: literal text or a group reference
(`\1`, `\2`, ...). -/
inductive RItem where
  | lit : String → RItem
  | ref : Nat → RItem

def capLookup (caps : List (Nat × List Char)) (n : Nat) : List Char :=
  match caps.find? (fun p => p.1 == n) with
  | some p => p.2
  | none => []

def expandTmpl (tmpl : List RItem) (caps : List (Nat × List Char)) : List Char :=
  tmpl.foldr (fun it acc =>
    match it with
    | RItem.lit s => s.data ++ acc
    | RItem.ref n => capLookup caps n ++ acc) []

/-- The `re.sub` driver (CPython >= 3.7 empty-match rule): replace the
leftmost match, then continue after it; after an empty match copy one
character and advance. -/
def subRun (re : RE) (tmpl : List RItem) : Nat → List Char → List Char → List Char
  | 0, _, rest => rest
  | n + 1, rev, rest =>
    match searchAt re rev rest with
    | none => rest
    | some (skip, st) =>
      let repl := expandTmpl tmpl st.caps
      if rest.length - skip.length == st.rest.length then
        match st.rest with
        | [] => skip ++ repl
        | c :: rs => skip ++ repl ++ c :: subRun re tmpl n (c :: st.rev) rs
      else
        skip ++ repl ++ subRun re tmpl n st.rev st.rest

/-- Python `re.sub(pattern, template, s)`. -/
def pySub (re : RE) (tmpl : List RItem) (s : String) : String :=
  String.mk (subRun re tmpl (s.data.length + 1) [] s.data)

/-! Pattern-building helpers.  `rc` is a case-insensitive single character
(the script's patterns carry `(?i)` or `re.IGNORECASE` wherever letters
occur, except where noted), `rcCS` a case-sensitive one. -/

def rcls (p : Char → Bool) : RE := RE.cls p

def rc (c : Char) : RE := RE.cls (fun x => pyLowerChar x == pyLowerChar c)

def rcCS (c : Char) : RE := RE.cls (fun x => x == c)

def rcat (l : List RE) : RE := l.foldr RE.seq RE.eps

def ralt : List RE → RE
  | [] => RE.cls (fun _ => false)
  | [r] => r
  | r :: rs => RE.alt r (ralt rs)

def rstr (w : String) : RE := rcat (w.data.map rc)

def rstrCS (w : String) : RE := rcat (w.data.map rcCS)

/-- `\.?` -/
def dotOpt : RE := RE.opt (rcCS '.')

/-- `\s*` -/
def sp0 : RE := RE.star (rcls isSpaceChar)

/-- `\s+` -/
def sp1 : RE := RE.seq (rcls isSpaceChar) (RE.star (rcls isSpaceChar))

/-- `[-\s]*` -/
def dashSp : RE := RE.star (rcls (fun c => c == '-' || isSpaceChar c))

/-- `\d+` -/
def digits1 : RE := RE.seq (rcls isDigitChar) (RE.star (rcls isDigitChar))

def rwb : RE := RE.wordB

/-! ### The patterns of `SeizedPropertyGeocoder._clean_address` -/

/-- `(?:год[ау]?|лет|рок[ів]?|рік)` -/
def yearWord : RE :=
  ralt [rcat [rstr "год", RE.opt (rcls (fun c => pyLowerChar c == 'а' || pyLowerChar c == 'у'))],
        rstr "лет",
        rcat [rstr "рок", RE.opt (rcls (fun c => pyLowerChar c == 'і' || pyLowerChar c == 'в'))],
        rstr "рік"]

/-- `(?:ссср|срср|срс|сс|с\.?с\.?р\.?|с\.?р\.?с\.?р\.?)` (the body of the
USSR alternation, grouped at use sites) -/
def sssrAlt : RE :=
  ralt [rstr "ссср", rstr "срср", rstr "срс", rstr "сс",
        rcat [rc 'с', dotOpt, rc 'с', dotOpt, rc 'р', dotOpt],
        rcat [rc 'с', dotOpt, rc 'р', dotOpt, rc 'с', dotOpt, rc 'р', dotOpt]]

/-- `(?i)(\d+)[-\s]*(?:год[ау]?|лет|рок[ів]?|рік)[-\s]*(ссср|срср|срс|сс|с\.?с\.?р\.?|с\.?р\.?с\.?р\.?)`
(the first, special-case rewrite of `_clean_address`) -/
def pUssr : RE := rcat [RE.grp 1 digits1, dashSp, yearWord, dashSp, RE.grp 2 sssrAlt]

/-- replacement `r'\1-летия СССР'` -/
def tUssr : List RItem := [RItem.ref 1, RItem.lit "-летия СССР"]

/-- `[-–—]` (hyphen, en dash, em dash) -/
def dashCls : RE := rcls (fun c => c == '-' || c == '–' || c == '—')

/-- `district_mapping` of `_clean_address`: the ordered (pattern,
replacement) rules, in dict insertion order.  Each rule is commented with
the original Python regex. -/
def districtRules : List (RE × List RItem) := [
  -- r'(?i)\bц\.?\s*р\.?\b' -> 'Центральный район'
  (rcat [rwb, rc 'ц', dotOpt, sp0, rc 'р', dotOpt, rwb], [RItem.lit "Центральный район"]),
  -- r'(?i)\bцр\b' -> 'Центральный район'
  (rcat [rwb, rstr "цр", rwb], [RItem.lit "Центральный район"]),
  -- r'(?i)\bцентральний\b' -> 'Центральный'
  (rcat [rwb, rstr "центральний", rwb], [RItem.lit "Центральный"]),
  -- r'(?i)\bк\.?\s*р\.?\b(?!ривой)' -> 'Кальмиусский район'
  (rcat [rwb, rc 'к', dotOpt, sp0, rc 'р', dotOpt, rwb, RE.nla (rstr "ривой")],
   [RItem.lit "Кальмиусский район"]),
  -- r'(?i)\bкр\b(?!ривой)' -> 'Кальмиусский район'
  (rcat [rwb, rstr "кр", rwb, RE.nla (rstr "ривой")], [RItem.lit "Кальмиусский район"]),
  -- r'(?i)\bкальміуський\b' -> 'Кальмиусский'
  (rcat [rwb, rstr "кальміуський", rwb], [RItem.lit "Кальмиусский"]),
  -- r'(?i)\bж\.?\s*р\.?\s*а\.?\b' -> 'Октябрьский район'
  (rcat [rwb, rc 'ж', dotOpt, sp0, rc 'р', dotOpt, sp0, rc 'а', dotOpt, rwb],
   [RItem.lit "Октябрьский район"]),
  -- r'(?i)\bжра\b' -> 'Октябрьский район'
  (rcat [rwb, rstr "жра", rwb], [RItem.lit "Октябрьский район"]),
  -- r'(?i)\bо\.?\s*р\.?\s*а\.?\b' -> 'Октябрьский район'
  (rcat [rwb, rc 'о', dotOpt, sp0, rc 'р', dotOpt, sp0, rc 'а', dotOpt, rwb],
   [RItem.lit "Октябрьский район"]),
  -- r'(?i)\bора\b' -> 'Октябрьский район'
  (rcat [rwb, rstr "ора", rwb], [RItem.lit "Октябрьский район"]),
  -- r'(?i)\bжовтневий\b' -> 'Октябрьский'
  (rcat [rwb, rstr "жовтневий", rwb], [RItem.lit "Октябрьский"]),
  -- r'(?i)\bп\.?\s*р\.?\b(?!ортов)' -> 'Приморский район'
  (rcat [rwb, rc 'п', dotOpt, sp0, rc 'р', dotOpt, rwb, RE.nla (rstr "ортов")],
   [RItem.lit "Приморский район"]),
  -- r'(?i)\bпр\b(?!ортов)' -> 'Приморский район'
  (rcat [rwb, rstr "пр", rwb, RE.nla (rstr "ортов")], [RItem.lit "Приморский район"]),
  -- r'(?i)\bприморський\b' -> 'Приморский'
  (rcat [rwb, rstr "приморський", rwb], [RItem.lit "Приморский"]),
  -- r'(?i)\bл\.?\s*б\.?\s*р\.?\b' -> 'Левобережный район'
  (rcat [rwb, rc 'л', dotOpt, sp0, rc 'б', dotOpt, sp0, rc 'р', dotOpt, rwb],
   [RItem.lit "Левобережный район"]),
  -- r'(?i)\bлбр\b' -> 'Левобережный район'
  (rcat [rwb, rstr "лбр", rwb], [RItem.lit "Левобережный район"]),
  -- r'(?i)\bлівобережний\b' -> 'Левобережный'
  (rcat [rwb, rstr "лівобережний", rwb], [RItem.lit "Левобережный"]),
  -- r'(?i)\bпр-?кт\.?\s*металлургов\b' -> 'проспект Металлургов'
  (rcat [rwb, rstr "пр", RE.opt (rc '-'), rstr "кт", dotOpt, sp0, rstr "металлургов", rwb],
   [RItem.lit "проспект Металлургов"]),
  -- r'(?i)\bпр-?кт\.?\s*ленина\b' -> 'проспект Ленина'
  (rcat [rwb, rstr "пр", RE.opt (rc '-'), rstr "кт", dotOpt, sp0, rstr "ленина", rwb],
   [RItem.lit "проспект Ленина"]),
  -- r'(?i)\bпр-?кт\.?\s*мира\b' -> 'проспект Мира'
  (rcat [rwb, rstr "пр", RE.opt (rc '-'), rstr "кт", dotOpt, sp0, rstr "мира", rwb],
   [RItem.lit "проспект Мира"]),
  -- r'(?i)\bпер\.?\s*нахимова\b' -> 'переулок Нахимова'
  (rcat [rwb, rstr "пер", dotOpt, sp0, rstr "нахимова", rwb], [RItem.lit "переулок Нахимова"]),
  -- r'(?i)\bул\.?\s*артема\b' -> 'улица Артема'
  (rcat [rwb, rstr "ул", dotOpt, sp0, rstr "артема", rwb], [RItem.lit "улица Артема"]),
  -- r'(?i)\bул\.?\s*куприна\b' -> 'улица Куприна'
  (rcat [rwb, rstr "ул", dotOpt, sp0, rstr "куприна", rwb], [RItem.lit "улица Куприна"]),
  -- r'(?i)\b(ул\.?|улица|вул\.?|вулиця)?\s*(\d+)[-\s]*(?:год[ау]?|лет|рок[ів]?|рік)[-\s]*(ссср|...)\b'
  -- replacement source text 'улица \2-летия СССР' — a plain (non-raw) Python
  -- string literal, so `\2` is the octal escape U+0002, not a group reference.
  (rcat [rwb,
         RE.opt (RE.grp 1 (ralt [rcat [rstr "ул", dotOpt], rstr "улица",
                                 rcat [rstr "вул", dotOpt], rstr "вулиця"])),
         sp0, RE.grp 2 digits1, dashSp, yearWord, dashSp, RE.grp 3 sssrAlt, rwb],
   [RItem.lit "улица \x02-летия СССР"])]

/-- The `replacements` dict of `_clean_address`: ordered rules, in dict
insertion order, each commented with the original Python regex. -/
def replacementRules : List (RE × List RItem) := [
  -- r'(?i)\b(?:вул\.?|вулиц[яюи]|вулиці|vul\.?|vulytsya)\b' -> 'улица'
  (rcat [rwb, ralt [rcat [rstr "вул", dotOpt],
                    rcat [rstr "вулиц", rcls (fun c => pyLowerChar c == 'я' ||
                          pyLowerChar c == 'ю' || pyLowerChar c == 'и')],
                    rstr "вулиці", rcat [rstr "vul", dotOpt], rstr "vulytsya"], rwb],
   [RItem.lit "улица"]),
  -- r'(?i)\b(?:пров\.?|провулок|prov\.?|provulok)\b' -> 'переулок'
  (rcat [rwb, ralt [rcat [rstr "пров", dotOpt], rstr "провулок",
                    rcat [rstr "prov", dotOpt], rstr "provulok"], rwb],
   [RItem.lit "переулок"]),
  -- r'(?i)\b(?:пр-?кт\.?|просп\.?|проспект|prosp\.?|prospekt)\b' -> 'проспект'
  (rcat [rwb, ralt [rcat [rstr "пр", RE.opt (rc '-'), rstr "кт", dotOpt],
                    rcat [rstr "просп", dotOpt], rstr "проспект",
                    rcat [rstr "prosp", dotOpt], rstr "prospekt"], rwb],
   [RItem.lit "проспект"]),
  -- r'(?i)\b(?:бул\.?|бульвар|bul\.?|bulvar)\b' -> 'бульвар'
  (rcat [rwb, ralt [rcat [rstr "бул", dotOpt], rstr "бульвар",
                    rcat [rstr "bul", dotOpt], rstr "bulvar"], rwb],
   [RItem.lit "бульвар"]),
  -- r'(?i)\b(?:пл\.?|площа|площадь|pl\.?|ploshcha|ploshchad)\b' -> 'площадь'
  (rcat [rwb, ralt [rcat [rstr "пл", dotOpt], rstr "площа", rstr "площадь",
                    rcat [rstr "pl", dotOpt], rstr "ploshcha", rstr "ploshchad"], rwb],
   [RItem.lit "площадь"]),
  -- r'(?i)\b(?:ш\.?|шосе|sh\.?|shose)\b' -> 'шоссе'
  (rcat [rwb, ralt [rcat [rc 'ш', dotOpt], rstr "шосе",
                    rcat [rstr "sh", dotOpt], rstr "shose"], rwb],
   [RItem.lit "шоссе"]),
  -- r'(?i)\b(?:наб\.?|набережна|набережная|nab\.?|naberezhna|naberezhnaya)\b' -> 'набережная'
  (rcat [rwb, ralt [rcat [rstr "наб", dotOpt], rstr "набережна", rstr "набережная",
                    rcat [rstr "nab", dotOpt], rstr "naberezhna", rstr "naberezhnaya"], rwb],
   [RItem.lit "набережная"]),
  -- r'(?i)\b(?:пр-?д\.?|проезд|proezd)\b' -> 'проезд'
  (rcat [rwb, ralt [rcat [rstr "пр", RE.opt (rc '-'), rc 'д', dotOpt],
                    rstr "проезд", rstr "proezd"], rwb],
   [RItem.lit "проезд"]),
  -- r'(?i)\b(?:туп\.?|тупик|tup\.?|tupik)\b' -> 'тупик'
  (rcat [rwb, ralt [rcat [rstr "туп", dotOpt], rstr "тупик",
                    rcat [rstr "tup", dotOpt], rstr "tupik"], rwb],
   [RItem.lit "тупик"]),
  -- r'(?i)\b(?:с\.?\s*с\.?|с/с|с-с|селище|selyshche|s/s|s-s|с\.?с\.?)\b' -> 'поселок'
  (rcat [rwb, ralt [rcat [rc 'с', dotOpt, sp0, rc 'с', dotOpt],
                    rcat [rc 'с', rc '/', rc 'с'], rcat [rc 'с', rc '-', rc 'с'],
                    rstr "селище", rstr "selyshche",
                    rcat [rc 's', rc '/', rc 's'], rcat [rc 's', rc '-', rc 's'],
                    rcat [rc 'с', dotOpt, rc 'с', dotOpt]], rwb],
   [RItem.lit "поселок"]),
  -- r'(?i)\b(?:пос\.?|поселение|поселок|pos\.?|poseleniye|posyolok|п\.?|п/п|п-п|п\.?п\.?)\b' -> 'поселок'
  (rcat [rwb, ralt [rcat [rstr "пос", dotOpt], rstr "поселение", rstr "поселок",
                    rcat [rstr "pos", dotOpt], rstr "poseleniye", rstr "posyolok",
                    rcat [rc 'п', dotOpt], rcat [rc 'п', rc '/', rc 'п'],
                    rcat [rc 'п', rc '-', rc 'п'], rcat [rc 'п', dotOpt, rc 'п', dotOpt]], rwb],
   [RItem.lit "поселок"]),
  -- r'(?i)\b(?:смт\b|с\.?м\.?т\.?|селище міського типу)\b' -> 'пгт'
  (rcat [rwb, ralt [rcat [rstr "смт", rwb],
                    rcat [rc 'с', dotOpt, rc 'м', dotOpt, rc 'т', dotOpt],
                    rstr "селище міського типу"], rwb],
   [RItem.lit "пгт"]),
  -- r'(?i)\b(?:с\.?|село|selo|s\.?)\b' -> 'село'
  (rcat [rwb, ralt [rcat [rc 'с', dotOpt], rstr "село", rstr "selo",
                    rcat [rc 's', dotOpt]], rwb],
   [RItem.lit "село"]),
  -- r'(?i)\b(?:х\.?|хутор|khutor|kh\.?)\b' -> 'хутор'
  (rcat [rwb, ralt [rcat [rc 'х', dotOpt], rstr "хутор", rstr "khutor",
                    rcat [rstr "kh", dotOpt]], rwb],
   [RItem.lit "хутор"]),
  -- r'(?i)\b(?:буд\.?|будинок|bud\.?|budynok)\b' -> 'д.'
  (rcat [rwb, ralt [rcat [rstr "буд", dotOpt], rstr "будинок",
                    rcat [rstr "bud", dotOpt], rstr "budynok"], rwb],
   [RItem.lit "д."]),
  -- r'(?i)\b(?:корп\.?|корпус|korpus|kor\.?|korp\.?)\b' -> 'к.'
  (rcat [rwb, ralt [rcat [rstr "корп", dotOpt], rstr "корпус", rstr "korpus",
                    rcat [rstr "kor", dotOpt], rcat [rstr "korp", dotOpt]], rwb],
   [RItem.lit "к."]),
  -- r'(?i)(^|\s|,)(нко)(\s|$)' -> r'\1улица\3'
  (rcat [RE.grp 1 (ralt [RE.bos, rcls isSpaceChar, rc ',']),
         RE.grp 2 (rstr "нко"),
         RE.grp 3 (ralt [rcls isSpaceChar, RE.eos])],
   [RItem.ref 1, RItem.lit "улица", RItem.ref 3]),
  -- r'(?i)\bн\.?\s*к\.?\s*о\.?\b' -> 'улица'
  (rcat [rwb, rc 'н', dotOpt, sp0, rc 'к', dotOpt, sp0, rc 'о', dotOpt, rwb],
   [RItem.lit "улица"]),
  -- r'(?i)\b(\d+)[-\s]*(?:й|я|го|му|ый|ой|ий|ая|ое|ье|ые|ых|ым|ими|х|м|го|му|ем|ом|ом)\b' -> r'\1-й'
  (rcat [rwb, RE.grp 1 digits1, dashSp,
         ralt [rc 'й', rc 'я', rstr "го", rstr "му", rstr "ый", rstr "ой", rstr "ий",
               rstr "ая", rstr "ое", rstr "ье", rstr "ые", rstr "ых", rstr "ым",
               rstr "ими", rc 'х', rc 'м', rstr "го", rstr "му", rstr "ем",
               rstr "ом", rstr "ом"], rwb],
   [RItem.ref 1, RItem.lit "-й"]),
  -- r'(?i)\b(\d+)\s*[-–—]?\s*(?:год[ау]?|лет|рок[ів]?|рік)?\s*(ссср|...)\b' -> r'\1-летия СССР'
  (rcat [rwb, RE.grp 1 digits1, sp0, RE.opt dashCls, sp0, RE.opt yearWord, sp0,
         RE.grp 2 sssrAlt, rwb],
   [RItem.ref 1, RItem.lit "-летия СССР"]),
  -- r'\s+' -> ' '
  (sp1, [RItem.lit " "]),
  -- r'\s*,\s*' -> ', '
  (rcat [sp0, rc ',', sp0], [RItem.lit ", "]),
  -- r'\s*\.\s*' -> '.'
  (rcat [sp0, rcCS '.', sp0], [RItem.lit "."]),
  -- r'\s*\/\s*' -> '/'
  (rcat [sp0, rcCS '/', sp0], [RItem.lit "/"]),
  -- r'\s*-\s*' -> '-'
  (rcat [sp0, rcCS '-', sp0], [RItem.lit "-"])]

/-- `[а-яА-Я]` (with `re.IGNORECASE` both halves denote the same set). -/
def cyrAYa : RE :=
  rcls (fun c =>
    let n := c.toNat
    decide ((1072 ≤ n ∧ n ≤ 1103) ∨ (1040 ≤ n ∧ n ≤ 1071)))

/-- `r'(\d+)([а-яА-Я])\b'` with `flags=re.IGNORECASE`, replacement `r'\1\2'`. -/
def pLetterDigit : RE := rcat [RE.grp 1 digits1, RE.grp 2 cyrAYa, rwb]

def tLetterDigit : List RItem := [RItem.ref 1, RItem.ref 2]

/-- `r'[\s,.]*$'` (final trailing-separator strip), replacement `''`. -/
def pTrailing : RE :=
  rcat [RE.star (rcls (fun c => isSpaceChar c || c == ',' || c == '.')), RE.eos]

/-! ### `_clean_address`, staged exactly as in the source -/

/-- Stage 1 of `_clean_address`: the special-case numeric years-of-USSR
rewrite, applied to the stripped input before everything else. -/
def ussrStage (s : String) : String := pySub pUssr tUssr s

/-- Stage 2 of `_clean_address`: the `district_mapping` rules, applied in
dict insertion order. -/
def districtStage (s : String) : String :=
  districtRules.foldl (fun acc pr => pySub pr.1 pr.2 acc) s

/-- Stages 3..6 of `_clean_address`: the `replacements` rules in order, the
letter-after-digit rewrite, the whitespace collapse + strip, and the
trailing-separator strip. -/
def lateStages (s : String) : String :=
  let c3 := replacementRules.foldl (fun acc pr => pySub pr.1 pr.2 acc) s
  let c4 := pySub pLetterDigit tLetterDigit c3
  let c5 := pyStrip (pySub sp1 [RItem.lit " "] c4)
  pySub pTrailing [] c5

/-- `SeizedPropertyGeocoder._clean_address` on an actual string input. -/
def cleanStr (s : String) : String :=
  lateStages (districtStage (ussrStage (pyStrip s)))

/-- A dynamically-typed Python argument: `None`, a string, or any
non-string value. -/
inductive PyV where
  | pnone : PyV
  | pstr : String → PyV
  | pother : PyV
deriving DecidableEq

/-- `SeizedPropertyGeocoder._clean_address`: `if not address or not
isinstance(address, str): return ""` and otherwise the rewrite pipeline. -/
def cleanPy : PyV → String
  | PyV.pstr s => if s == "" then "" else cleanStr s
  | _ => ""

/-- `_clean_address` on an argument statically known to be a string. -/
def cleanS (s : String) : String := if s == "" then "" else cleanStr s

/-! ### `re.sub` with a function replacement (used by the short-form
street-type rewrite, whose replacement raises `KeyError` when the matched
text is not an exact key of its lookup dict) -/

def subRunF (re : RE) (f : List Char → Except String (List Char)) :
    Nat → List Char → List Char → Except String (List Char)
  | 0, _, rest => Except.ok rest
  | n + 1, rev, rest =>
    match searchAt re rev rest with
    | none => Except.ok rest
    | some (skip, st) =>
      let matched := (rest.drop skip.length).take (rest.length - skip.length - st.rest.length)
      match f matched with
      | Except.error e => Except.error e
      | Except.ok repl =>
        if rest.length - skip.length == st.rest.length then
          match st.rest with
          | [] => Except.ok (skip ++ repl)
          | c :: rs =>
            match subRunF re f n (c :: st.rev) rs with
            | Except.error e => Except.error e
            | Except.ok out => Except.ok (skip ++ repl ++ c :: out)
        else
          match subRunF re f n st.rev st.rest with
          | Except.error e => Except.error e
          | Except.ok out => Except.ok (skip ++ repl ++ out)

def pySubF (re : RE) (f : List Char → Except String (List Char)) (s : String) :
    Except String String :=
  match subRunF re f (s.data.length + 1) [] s.data with
  | Except.error e => Except.error e
  | Except.ok l => Except.ok (String.mk l)

/-! ### `_generate_address_variations` -/

/-- A Python exception escaping an embedded function. -/
inductive PyErr where
  | keyError : String → PyErr
deriving DecidableEq

/-- Python `set.add` on a set represented by its elements in insertion
order (the contents of a CPython set are order-independent; its iteration
order is the `enum` parameter below). -/
def psAdd (s : List String) (x : String) : List String :=
  if s.contains x then s else s ++ [x]

/-- `street_name_mappings`, in dict insertion order. -/
def streetNameMappings : List (String × List String) := [
  ("металлургов", ["металургов"]),
  ("артема", ["артёма"]),
  ("нахимова", ["нахимова", "нахимова переулок"]),
  ("50-летия СССР", ["50 лет СССР", "50 лет ССР", "50-летия ССР", "50-летия СССР",
    "50 років СРСР", "50 летия СССР", "50-річчя СРСР", "50-річчя СССР"]),
  ("2-й Кальчик", ["2-й Кальчик", "2-й Кальчикский", "2-я Кальчикская"]),
  ("Кирова", ["Кірова"]),
  ("Чернышевского", ["Чернишевського"]),
  ("Щорса", ["Щорса", "Щорса улица", "улица Щорса"]),
  ("Луначарского", ["Луначарського"]),
  ("Куйбышева", ["Куйбишева"]),
  ("Фрунзе", ["Фрунзе", "Фрунзе улица", "улица Фрунзе"]),
  ("Дзержинского", ["Дзержинського"]),
  ("Куприна", ["Куприна", "Купріна"]),
  ("Лермонтова", ["Лермонтова", "Лермонтовська"]),
  ("Гагарина", ["Гагаріна"]),
  ("Горького", ["Горького", "Горького улица", "улица Горького"])]

/-- `district_variations` (Russian, Ukrainian), in dict insertion order. -/
def districtVariations : List (String × String) := [
  ("Октябрьский район", "Жовтневий район"),
  ("Ильичёвский район", "Іллічівський район"),
  ("Портовский район", "Портівський район"),
  ("Центральный район", "Центральний район"),
  ("Кальмиусский район", "Кальміуський район"),
  ("Приморский район", "Приморський район"),
  ("Левобережный район", "Лівобережний район")]

/-- `r'\b(?:улица|ул\.?|проспект|пр-?кт\.?|бульвар|б-р|переулок|пер\.?|площадь|пл\.?|шоссе|ш\.?|набережная|наб\.?|проезд|пр-?д\.?|тупик|туп\.?)\s+'`
with `re.IGNORECASE` (street type removal; replacement is empty). -/
def pNoType : RE :=
  rcat [rwb, ralt [rstr "улица", rcat [rstr "ул", dotOpt], rstr "проспект",
    rcat [rstr "пр", RE.opt (rc '-'), rstr "кт", dotOpt], rstr "бульвар",
    rcat [rc 'б', rc '-', rc 'р'], rstr "переулок", rcat [rstr "пер", dotOpt],
    rstr "площадь", rcat [rstr "пл", dotOpt], rstr "шоссе", rcat [rc 'ш', dotOpt],
    rstr "набережная", rcat [rstr "наб", dotOpt], rstr "проезд",
    rcat [rstr "пр", RE.opt (rc '-'), rc 'д', dotOpt], rstr "тупик",
    rcat [rstr "туп", dotOpt]], sp1]

/-- `r'\b(улица|проспект|бульвар|переулок|площадь|шоссе|набережная|проезд|тупик)\b'`
with `re.IGNORECASE` (street type abbreviation). -/
def pShortType : RE :=
  rcat [rwb, RE.grp 1 (ralt [rstr "улица", rstr "проспект", rstr "бульвар",
    rstr "переулок", rstr "площадь", rstr "шоссе", rstr "набережная",
    rstr "проезд", rstr "тупик"]), rwb]

/-- The replacement lambda's lookup dict (exact lower-case keys only);
a match in any other capitalization raises `KeyError`. -/
def shortTypeMap : List (String × String) := [
  ("улица", "ул."), ("проспект", "пр-т"), ("бульвар", "б-р"), ("переулок", "пер."),
  ("площадь", "пл."), ("шоссе", "ш."), ("набережная", "наб."), ("проезд", "пр-д"),
  ("тупик", "туп.")]

def shortTypeLookup (w : List Char) : Except String (List Char) :=
  match shortTypeMap.find? (fun p => p.1.data == w) with
  | some p => Except.ok p.2.data
  | none => Except.error (String.mk w)

/-- Case-insensitive order-preserving deduplication (the final loop of
`_generate_address_variations`): `seen` holds lower-cased normalized
variants already emitted. -/
def dedupCIAux (seen : List String) : List String → List String
  | [] => []
  | v :: vs =>
    let nv := normWS v
    if seen.contains (pyLowerStr nv) then dedupCIAux seen vs
    else nv :: dedupCIAux (pyLowerStr nv :: seen) vs

/-- `SeizedPropertyGeocoder._generate_address_variations(address, district)`.
`enum` models the hash-dependent iteration order of `list(variations)` on
the final CPython set (set contents are iteration-order-independent, so
only this final enumeration needs the parameter).  The short-form
street-type rewrite can raise `KeyError`, which escapes the function. -/
def genVariations (enum : List String → List String) (address district : String) :
    Except PyErr (List String) :=
  if address == "" then Except.ok []
  else
    let ca := cleanS address
    if ca == "" then Except.ok []
    else
      let v1 := streetNameMappings.foldl (fun acc sm =>
        if pyContains (pyLowerStr ca) (pyLowerStr sm.1) then
          sm.2.foldl (fun acc2 alt =>
            psAdd (psAdd acc2 (pyReplace ca sm.1 alt))
                  (pyReplace (pyLowerStr ca) (pyLowerStr sm.1) alt)) acc
        else acc) [ca]
      let v2 :=
        if district != "" then
          let cd := cleanS district
          if cd != "" && !(pyContains (pyLowerStr ca) (pyLowerStr cd)) then
            psAdd v1 (ca ++ ", " ++ cd)
          else v1
        else v1
      let hasRegional := ["мариуполь", "донецк", "донецкая", "украин"].any
        (fun x => pyContains (pyLowerStr ca) x)
      let v3 :=
        if !hasRegional then
          v2.foldl (fun acc var =>
            psAdd (psAdd acc (var ++ ", Мариуполь, Донецкая область, Украина"))
                  (var ++ ", Мариуполь, Донецкая область")) v2
        else v2
      let v4 := districtVariations.foldl (fun acc dv =>
        acc.foldl (fun acc2 var =>
          if pyContains (pyLowerStr var) (pyLowerStr dv.1) then
            psAdd (psAdd acc2 (pyReplace var dv.1 dv.2)) (pyTitle (pyReplace var dv.1 dv.2))
          else if pyContains (pyLowerStr var) (pyLowerStr dv.2) then
            psAdd (psAdd acc2 (pyReplace var dv.2 dv.1)) (pyTitle (pyReplace var dv.2 dv.1))
          else acc2) acc) v3
      let stvE := v4.foldl (fun accE var =>
        match accE with
        | Except.error e => Except.error e
        | Except.ok acc =>
          let noType := pySub pNoType [] var
          let acc1 := if noType != var then acc ++ [noType] else acc
          match pySubF pShortType shortTypeLookup var with
          | Except.error e => Except.error (PyErr.keyError e)
          | Except.ok shortT =>
            Except.ok (if shortT != var then acc1 ++ [shortT] else acc1))
        (Except.ok [])
      match stvE with
      | Except.error e => Except.error e
      | Except.ok stv =>
        let v5 := stv.foldl psAdd v4
        let lst := enum v5
        let lst2 := (lst.filter (fun v => v != "" && pyStrip v != "")).map normWS
        Except.ok (dedupCIAux [] lst2)

/-! ### Cache, manual overrides, region filter -/

/-- A cache value as found in the JSON-backed dict: a 2-element coordinate
array/tuple, the explicit `null` negative marker, or any other (garbage)
value. -/
inductive CVal where
  | coords : ℚ → ℚ → CVal
  | nullv : CVal
  | other : CVal
deriving DecidableEq

abbrev Cache := List (String × CVal)

/-- Python dict read. -/
def dget (d : Cache) (k : String) : Option CVal :=
  match d.find? (fun p => p.1 == k) with
  | some p => some p.2
  | none => none

/-- Python dict write: overwrite in place, or append a new key (insertion
order preserved). -/
def dset (d : Cache) (k : String) (v : CVal) : Cache :=
  if (d.find? (fun p => p.1 == k)).isSome then
    d.map (fun p => if p.1 == k then (k, v) else p)
  else d ++ [(k, v)]

/-- `self.manual_coordinates`, in dict insertion order, coordinates as
written in the source. -/
def manualCoordinates : List (String × ℚ × ℚ) := [
  ("б-р Богдана Хмельницкого, д. 24", (37.5689, 47.1012)),
  ("б-р Богдана Хмельницкого, 24", (37.5689, 47.1012)),
  ("Богдана Хмельницкого, 24", (37.5689, 47.1012)),
  ("Хмельницкого, 24", (37.5689, 47.1012)),
  ("Khmelnytskoho, 24", (37.5689, 47.1012)),
  ("50-летия СССР, 55, Октябрьский район", (37.5667, 47.1000)),
  ("50-летия СССР, 55", (37.5667, 47.1000)),
  ("50 let SSSR, 55", (37.5667, 47.1000)),
  ("б-р Шевченко, 24", (37.5650, 47.0980)),
  ("Шевченко, 24", (37.5650, 47.0980)),
  ("Shevchenka, 24", (37.5650, 47.0980))]

/-- `_is_in_mariupol_region`. -/
def isInMariupolRegion (lon lat : ℚ) : Bool :=
  decide ((37.4 ≤ lon ∧ lon ≤ 37.7) ∧ (47.0 ≤ lat ∧ lat ≤ 47.2))

/-- What a call to the wrapped geocoding client returns to the
orchestrator: `None`, a location object without coordinate attributes, or
a location with longitude/latitude. -/
inductive GeoResp where
  | noneR : GeoResp
  | noCoords : GeoResp
  | loc : ℚ → ℚ → GeoResp
deriving DecidableEq

/-- The orchestrator's mutable fields touched by `_geocode_single_address`. -/
structure GSt where
  cache : Cache
  cacheHits : Nat
  cacheMisses : Nat
  cacheModified : Bool
deriving DecidableEq

/-- Result of one `_geocode_single_address` call: the returned value, the
final state, the number of online geocoding calls made, and the variant
strings passed to the geocode client in order. -/
structure GOut where
  res : Option (ℚ × ℚ)
  st : GSt
  ncalls : Nat
  queries : List String
deriving DecidableEq

/-- The variant loop of `_geocode_single_address` (source lines 535-571):
per variant, cross-variant cache reuse, else one client call, region
filter, first accepted result wins; on exhaustion the original key is
negatively cached.  `n` counts client calls, `qs` records queries. -/
def tryVariants (client : Nat → GeoResp) (district cacheKey : String) :
    List String → GSt → Nat → List String → GOut
  | [], st, n, qs =>
    ⟨none, { st with cache := dset st.cache cacheKey CVal.nullv, cacheModified := true }, n, qs⟩
  | v :: vs, st, n, qs =>
    let varKey := pyLowerStr (v ++ "|" ++ district)
    match dget st.cache varKey with
    | some (CVal.coords lon lat) =>
      ⟨some (lon, lat), { st with cache := dset st.cache cacheKey (CVal.coords lon lat) }, n, qs⟩
    | _ =>
      match client n with
      | GeoResp.loc lon lat =>
        if isInMariupolRegion lon lat then
          ⟨some (lon, lat),
           { st with
             cache := dset (dset st.cache cacheKey (CVal.coords lon lat)) varKey
               (CVal.coords lon lat),
             cacheModified := true }, n + 1, qs ++ [v]⟩
        else tryVariants client district cacheKey vs st (n + 1) (qs ++ [v])
      | _ => tryVariants client district cacheKey vs st (n + 1) (qs ++ [v])

/-- The manual-override lookup key of `_geocode_single_address`:
`f"{cleaned}, {district}" if district else cleaned`, lower-cased and
stripped. -/
def manualKeyOf (cleaned district : String) : String :=
  pyStrip (pyLowerStr (if district != "" then cleaned ++ ", " ++ district else cleaned))

/-- The variant-list assembly of `_geocode_single_address` (source lines
509-530): take the first 5 generated variations, append the
district-qualified form when no variant mentions the district, append the
region-qualified forms of the first two variants that do not already
mention the city, append the cleaned address itself as a last resort if
absent, and cap the list at 8. -/
def assembleVariants (gen : List String) (cleaned district : String) : List String :=
  let vs1 := gen.take 5
  let vs2 :=
    if district != "" &&
        !(vs1.any (fun v => pyContains (pyLowerStr v) (pyLowerStr district))) then
      vs1 ++ [cleaned ++ ", " ++ district]
    else vs1
  let withRegion := (vs2.take 2).foldr (fun var acc =>
    if !(pyContains (pyLowerStr var) "мариуполь") then
      (var ++ ", Мариуполь, Донецкая область, Украина") :: (var ++ ", Мариуполь") :: acc
    else acc) []
  let vs3 := vs2 ++ withRegion
  let vs4 := if !(vs3.contains cleaned) then vs3 ++ [cleaned] else vs3
  vs4.take 8

/-- The cache-miss tail of `_geocode_single_address` (source lines
482-571): manual override exact match (whose dict lookup uses the
lower-cased key and hence raises `KeyError` whenever the matched dict key
is not entirely lower-case), manual prefix match in dict order, variant
assembly, and the variant loop. -/
def geocodeSingleMiss (enum : List String → List String) (client : Nat → GeoResp)
    (district : String) (st : GSt) (cleaned cacheKey : String) : Except PyErr GOut :=
  let st1 := { st with cacheMisses := st.cacheMisses + 1 }
  if (manualCoordinates.map (fun p => pyLowerStr p.1)).contains (manualKeyOf cleaned district) then
    match manualCoordinates.find? (fun p => p.1 == manualKeyOf cleaned district) with
    | some (_, mlon, mlat) =>
      Except.ok ⟨some (mlon, mlat),
        { st1 with
          cache := dset st1.cache cacheKey (CVal.coords mlon mlat),
          cacheModified := true }, 0, []⟩
    | none => Except.error (PyErr.keyError (manualKeyOf cleaned district))
  else
    match manualCoordinates.find? (fun p =>
        pyStartsWith (manualKeyOf cleaned district) (pyLowerStr p.1)) with
    | some (_, mlon, mlat) =>
      Except.ok ⟨some (mlon, mlat),
        { st1 with
          cache := dset st1.cache cacheKey (CVal.coords mlon mlat),
          cacheModified := true }, 0, []⟩
    | none =>
      match genVariations enum cleaned district with
      | Except.error e => Except.error e
      | Except.ok gen =>
        Except.ok (tryVariants client district cacheKey
          (assembleVariants gen cleaned district) st1 0 [])

/-- `SeizedPropertyGeocoder._geocode_single_address(address, district)`.
`client n` is the value returned by the `RateLimitedGeocoder.geocode` call
number `n` of this invocation (that wrapper never raises, see
`rlGeocode`); `enum` is the set-iteration-order oracle. -/
def geocodeSingle (enum : List String → List String) (client : Nat → GeoResp)
    (address : PyV) (district : String) (st : GSt) : Except PyErr GOut :=
  match address with
  | PyV.pstr s =>
    if s == "" then Except.ok ⟨none, st, 0, []⟩
    else
      let cleaned := cleanStr s
      if cleaned == "" then Except.ok ⟨none, st, 0, []⟩
      else
        let cacheKey := pyLowerStr (cleaned ++ "|" ++ district)
        match dget st.cache cacheKey with
        | some (CVal.coords lon lat) =>
          Except.ok ⟨some (lon, lat), { st with cacheHits := st.cacheHits + 1 }, 0, []⟩
        | some CVal.nullv => Except.ok ⟨none, st, 0, []⟩
        | _ => geocodeSingleMiss enum client district st cleaned cacheKey
  | _ => Except.ok ⟨none, st, 0, []⟩

/-! ### `RateLimitedGeocoder.geocode` -/

/-- Behaviour of one underlying `Nominatim.geocode` attempt: a normal
return, a `GeocoderTimedOut`/`GeocoderServiceError` (which in geopy also
covers `GeocoderUnavailable`), or any other exception. -/
inductive Attempt where
  | ok : GeoResp → Attempt
  | transient : Attempt
  | otherErr : Attempt
deriving DecidableEq

/-- Result of `RateLimitedGeocoder.geocode`: the returned value, the number
of attempts made, and the backoff delays slept between attempts. -/
structure RLOut where
  result : GeoResp
  attempts : Nat
  delays : List ℚ
deriving DecidableEq

def maxRetries : Nat := 3

/-- The retry loop of `RateLimitedGeocoder.geocode`: `retries` is the loop
counter, `rem = max_retries - retries`, `oc k` the outcome of attempt `k`,
`jit k` the `random.uniform(0, 1)` sample of attempt `k`.  A transient
failure sleeps `2 ** retries + jitter` and retries; any other exception
returns `None` at once; exhaustion returns `None`. -/
def rlFrom (oc : Nat → Attempt) (jit : Nat → ℚ) : Nat → Nat → List ℚ → RLOut
  | retries, 0, ds => ⟨GeoResp.noneR, retries, ds⟩
  | retries, rem + 1, ds =>
    match oc retries with
    | Attempt.ok r => ⟨r, retries + 1, ds⟩
    | Attempt.transient => rlFrom oc jit (retries + 1) rem (ds ++ [(2 : ℚ) ^ retries + jit retries])
    | Attempt.otherErr => ⟨GeoResp.noneR, retries + 1, ds⟩

def rlGeocode (oc : Nat → Attempt) (jit : Nat → ℚ) : RLOut :=
  rlFrom oc jit 0 maxRetries []

/-! ### `_save_cache`, `extract_building_address`, `process_properties` -/

/-- `_save_cache(force)`: a no-op when the cache is clean or no cache file
is configured; skipped when not forced and the 300-second save interval
has not elapsed (`intervalElapsed`); otherwise the whole mapping is
written to the cache file (temp file + atomic rename, modelled as
replacing the disk value) and the dirty flag cleared. -/
def saveCache (force intervalElapsed hasCacheFile : Bool) (st : GSt) (disk : Option Cache) :
    GSt × Option Cache :=
  if !st.cacheModified || !hasCacheFile then (st, disk)
  else if !force && !intervalElapsed then (st, disk)
  else ({ st with cacheModified := false }, some st.cache)

/-- `r',?\s*кв\.?\s*\d+.*$'` (apartment suffix; case-sensitive, no
`re.IGNORECASE` here). -/
def pApt : RE :=
  rcat [RE.opt (rcCS ','), sp0, rcCS 'к', rcCS 'в', dotOpt, sp0, digits1,
        RE.star (rcls (fun c => c != '\n')), RE.eos]

/-- `extract_building_address`. -/
def extractBuildingAddress (s : String) : String := pyStrip (pySub pApt [] s)

/-- One input row of `process_properties` (the address and district
columns). -/
structure Row where
  address : String
  district : String
deriving DecidableEq

/-- `DataFrame.drop_duplicates` on the (district, building_address) pair:
keep first occurrences, preserve order. -/
def dedupPairs : List (String × String) → List (String × String)
  | [] => []
  | p :: ps =>
    p :: dedupPairs (ps.filter (fun q => !(q.1 == p.1 && q.2 == p.2)))
termination_by l => l.length
decreasing_by
  simp only [List.length_cons]
  exact Nat.lt_succ_of_le (List.length_filter_le _ ps)

/-- The `buildings.apply(...)` geocoding pass: geocode each unique
building in order, threading the orchestrator state; a Python exception
aborts the pass (pandas propagates it).  `clients i` is the client oracle
for building number `i`. -/
def geocodeBuildings (enum : List String → List String) (clients : Nat → Nat → GeoResp) :
    List (String × String) → GSt → Nat → Option (List (String × Option (ℚ × ℚ))) × GSt
  | [], st, _ => (some [], st)
  | (d, b) :: rest, st, i =>
    match geocodeSingle enum (clients i) (PyV.pstr b) d st with
    | Except.error _ => (none, st)
    | Except.ok out =>
      match geocodeBuildings enum clients rest out.st (i + 1) with
      | (none, st2) => (none, st2)
      | (some tl, st2) => (some ((b, out.res) :: tl), st2)

/-- `SeizedPropertyGeocoder.process_properties`: extract building
addresses, geocode the de-duplicated (district, building) pairs, broadcast
the coordinates back to all rows through `dict(zip(building_address,
coordinates))` (later duplicates of a building address overwrite earlier
ones), and save the output table.  Any exception yields `False`.  File
reading and output writing are abstracted; `disk` is the cache file's
content, which `process_properties` never touches — the method contains no
call to `_save_cache`. -/
def processProperties (enum : List String → List String) (clients : Nat → Nat → GeoResp)
    (rows : List Row) (st : GSt) (disk : Option Cache) :
    Bool × GSt × Option Cache × List (Row × Option (ℚ × ℚ)) :=
  let buildings := dedupPairs (rows.map (fun r => (r.district, extractBuildingAddress r.address)))
  match geocodeBuildings enum clients buildings st 0 with
  | (none, st1) => (false, st1, disk, [])
  | (some coordsTbl, st1) =>
    let lookupB := fun (b : String) =>
      match coordsTbl.reverse.find? (fun p => p.1 == b) with
      | some p => p.2
      | none => none
    let outRows := rows.map (fun r => (r, lookupB (extractBuildingAddress r.address)))
    (true, st1, disk, outRows)

/-! ### Derived notions used by the theorem statements -/

/-- The cache key derived from an address and a district:
`f"{cleaned}|{district}".lower()`. -/
def derivedKey (s district : String) : String :=
  pyLowerStr (cleanStr s ++ "|" ++ district)

/-- The key is resolved: it carries a coordinate pair or the explicit
negative marker. -/
def Resolved (v : Option CVal) : Prop :=
  v = some CVal.nullv ∨ ∃ lon lat, v = some (CVal.coords lon lat)

/-- Every success entry of the cache is inside the Mariupol bounding box. -/
def AllInBox (d : Cache) : Prop :=
  ∀ p, p ∈ d → ∀ lon lat, p.2 = CVal.coords lon lat → isInMariupolRegion lon lat = true

/-- Case-insensitive pairwise distinctness of a variant list. -/
def CIDistinct (l : List String) : Prop :=
  l.Pairwise (fun x y => pyLowerStr x ≠ pyLowerStr y)

/-! ## Helper lemmas -/

theorem dget_nil (k : String) : dget [] k = none := rfl

theorem dget_cons (p : String × CVal) (d : Cache) (k : String) :
    dget (p :: d) k = if p.1 == k then some p.2 else dget d k := by
  simp only [dget, List.find?]
  cases h : p.1 == k <;> simp [h]

theorem dget_map_set (d : Cache) (k : String) (v : CVal) (k' : String) :
    dget (d.map (fun p => if p.1 == k then (k, v) else p)) k' =
      if k' = k then (dget d k).map (fun _ => v) else dget d k' := by
  induction d with
  | nil => by_cases hk : k' = k <;> simp [dget_nil, hk]
  | cons a t ih =>
    simp only [beq_iff_eq] at ih ⊢
    by_cases hak : a.1 = k
    · by_cases hk : k' = k
      · simp [dget_cons, hak, hk]
      · rw [if_neg hk] at ih
        simp [dget_cons, hak, hk, Ne.symm hk, ih]
    · by_cases hk : k' = k
      · subst hk
        rw [if_pos rfl] at ih
        simp [dget_cons, hak, ih]
      · rw [if_neg hk] at ih
        by_cases hak' : a.1 = k'
        · simp [dget_cons, hak, hk, hak', ih]
        · simp [dget_cons, hak, hk, hak', ih]

theorem dget_append_single (d : Cache) (k : String) (v : CVal) (k' : String) :
    dget (d ++ [(k, v)]) k' =
      match dget d k' with
      | some w => some w
      | none => if k' = k then some v else none := by
  induction d with
  | nil =>
    rw [List.nil_append, dget_cons, dget_nil]
    by_cases h : k' = k
    · have hb : ((k, v).1 == k') = true := beq_iff_eq.mpr h.symm
      simp [hb, h]
    · have hb : ((k, v).1 == k') = false := beq_eq_false_iff_ne.mpr (fun he => h he.symm)
      simp [hb, h]
  | cons a t ih =>
    rw [List.cons_append, dget_cons, dget_cons]
    cases h : a.1 == k' <;> simp [h, ih]

theorem dget_dset (d : Cache) (k : String) (v : CVal) (k' : String) :
    dget (dset d k v) k' = if k' = k then some v else dget d k' := by
  unfold dset
  by_cases hf : (d.find? (fun p => p.1 == k)).isSome = true
  · rw [if_pos hf, dget_map_set]
    by_cases hk : k' = k
    · subst hk
      have hs : (dget d k').isSome = true := by
        simp only [dget]
        cases hg : d.find? (fun p => p.1 == k') with
        | none => rw [hg] at hf; simp at hf
        | some p => simp
      cases hg : dget d k' with
      | none => rw [hg] at hs; simp at hs
      | some w => simp [hg]
    · simp [hk]
  · rw [if_neg hf, dget_append_single]
    by_cases hk : k' = k
    · subst hk
      have hnone : dget d k' = none := by
        simp only [dget]
        cases hg : d.find? (fun p => p.1 == k') with
        | none => rfl
        | some p => rw [hg] at hf; simp at hf
      simp [hnone]
    · cases hg : dget d k' <;> simp [hg, hk]

theorem dget_dset_self (d : Cache) (k : String) (v : CVal) :
    dget (dset d k v) k = some v := by
  rw [dget_dset]; simp

theorem allInBox_of_dget (d : Cache) (hd : AllInBox d) (k : String) (lon lat : ℚ)
    (h : dget d k = some (CVal.coords lon lat)) : isInMariupolRegion lon lat = true := by
  simp only [dget] at h
  cases hf : d.find? (fun p => p.1 == k) with
  | none => rw [hf] at h; simp at h
  | some p =>
    rw [hf] at h
    simp only [Option.some.injEq] at h
    exact hd p (List.mem_of_find?_eq_some hf) lon lat h

theorem allInBox_dset (d : Cache) (k : String) (v : CVal) (hd : AllInBox d)
    (hv : ∀ lon lat, v = CVal.coords lon lat → isInMariupolRegion lon lat = true) :
    AllInBox (dset d k v) := by
  unfold dset
  by_cases hf : (d.find? (fun p => p.1 == k)).isSome = true
  · rw [if_pos hf]
    intro p hp lon lat hpc
    rcases List.mem_map.mp hp with ⟨q, hq, hfq⟩
    by_cases hqk : (q.1 == k) = true
    · rw [if_pos hqk] at hfq
      apply hv
      rw [← hfq] at hpc
      exact hpc
    · rw [if_neg hqk] at hfq
      exact hd p (hfq ▸ hq) lon lat hpc
  · rw [if_neg hf]
    intro p hp lon lat hpc
    rcases List.mem_append.mp hp with hmem | hmem
    · exact hd p hmem lon lat hpc
    · have hpkv : p = (k, v) := by simpa using hmem
      apply hv
      rw [hpkv] at hpc
      exact hpc

theorem manual_in_box_all :
    (manualCoordinates.all (fun p => isInMariupolRegion p.2.1 p.2.2)) = true := by
  with_unfolding_all rfl

theorem manual_in_box :
    ∀ p ∈ manualCoordinates, isInMariupolRegion p.2.1 p.2.2 = true := by
  intro p hp
  exact List.all_eq_true.mp manual_in_box_all p hp

theorem tryVariants_resolves (client : Nat → GeoResp) (district cacheKey : String)
    (vs : List String) (st : GSt) (n : Nat) (qs : List String) :
    Resolved (dget (tryVariants client district cacheKey vs st n qs).st.cache cacheKey) := by
  induction vs generalizing st n qs with
  | nil => exact Or.inl (dget_dset_self _ _ _)
  | cons v vs ih =>
    simp only [tryVariants]
    cases hv : dget st.cache (pyLowerStr (v ++ "|" ++ district)) with
    | some cv =>
      cases cv with
      | coords lon lat =>
        exact Or.inr ⟨lon, lat, by simp [dget_dset_self]⟩
      | nullv =>
        cases hc : client n with
        | loc lon lat =>
          cases hbox : isInMariupolRegion lon lat with
          | true =>
            refine Or.inr ⟨lon, lat, ?_⟩
            simp only [hbox, if_true]
            rw [dget_dset]
            split
            · rfl
            · rw [dget_dset_self]
          | false => simpa [hbox] using ih st (n + 1) (qs ++ [v])
        | noneR => exact ih st (n + 1) (qs ++ [v])
        | noCoords => exact ih st (n + 1) (qs ++ [v])
      | other =>
        cases hc : client n with
        | loc lon lat =>
          cases hbox : isInMariupolRegion lon lat with
          | true =>
            refine Or.inr ⟨lon, lat, ?_⟩
            simp only [hbox, if_true]
            rw [dget_dset]
            split
            · rfl
            · rw [dget_dset_self]
          | false => simpa [hbox] using ih st (n + 1) (qs ++ [v])
        | noneR => exact ih st (n + 1) (qs ++ [v])
        | noCoords => exact ih st (n + 1) (qs ++ [v])
    | none =>
      cases hc : client n with
      | loc lon lat =>
        cases hbox : isInMariupolRegion lon lat with
        | true =>
          refine Or.inr ⟨lon, lat, ?_⟩
          simp only [hbox, if_true]
          rw [dget_dset]
          split
          · rfl
          · rw [dget_dset_self]
        | false => simpa [hbox] using ih st (n + 1) (qs ++ [v])
      | noneR => exact ih st (n + 1) (qs ++ [v])
      | noCoords => exact ih st (n + 1) (qs ++ [v])

theorem tryVariants_none_negcache (client : Nat → GeoResp) (district cacheKey : String)
    (vs : List String) (st : GSt) (n : Nat) (qs : List String)
    (h : (tryVariants client district cacheKey vs st n qs).res = none) :
    dget (tryVariants client district cacheKey vs st n qs).st.cache cacheKey =
      some CVal.nullv := by
  induction vs generalizing st n qs with
  | nil => exact dget_dset_self _ _ _
  | cons v vs ih =>
    simp only [tryVariants] at h ⊢
    revert h
    cases hv : dget st.cache (pyLowerStr (v ++ "|" ++ district)) with
    | some cv =>
      cases cv with
      | coords lon lat => intro h; cases h
      | nullv =>
        cases hc : client n with
        | loc lon lat =>
          cases hb : isInMariupolRegion lon lat with
          | true => intro h; simp [hb] at h
          | false => intro h; simp only [hb, Bool.false_eq_true, if_false] at h ⊢; exact ih st (n + 1) (qs ++ [v]) h
        | noneR => intro h; exact ih st (n + 1) (qs ++ [v]) h
        | noCoords => intro h; exact ih st (n + 1) (qs ++ [v]) h
      | other =>
        cases hc : client n with
        | loc lon lat =>
          cases hb : isInMariupolRegion lon lat with
          | true => intro h; simp [hb] at h
          | false => intro h; simp only [hb, Bool.false_eq_true, if_false] at h ⊢; exact ih st (n + 1) (qs ++ [v]) h
        | noneR => intro h; exact ih st (n + 1) (qs ++ [v]) h
        | noCoords => intro h; exact ih st (n + 1) (qs ++ [v]) h
    | none =>
      cases hc : client n with
      | loc lon lat =>
        cases hb : isInMariupolRegion lon lat with
        | true => intro h; simp [hb] at h
        | false => intro h; simp only [hb, Bool.false_eq_true, if_false] at h ⊢; exact ih st (n + 1) (qs ++ [v]) h
      | noneR => intro h; exact ih st (n + 1) (qs ++ [v]) h
      | noCoords => intro h; exact ih st (n + 1) (qs ++ [v]) h

theorem tryVariants_box (client : Nat → GeoResp) (district cacheKey : String)
    (vs : List String) (st : GSt) (n : Nat) (qs : List String) (hbox : AllInBox st.cache) :
    AllInBox (tryVariants client district cacheKey vs st n qs).st.cache ∧
      (∀ lon lat, (tryVariants client district cacheKey vs st n qs).res = some (lon, lat) →
        isInMariupolRegion lon lat = true) := by
  induction vs generalizing st n qs with
  | nil =>
    constructor
    · exact allInBox_dset _ _ _ hbox (fun lon lat h => by cases h)
    · intro lon lat h
      cases h
  | cons v vs ih =>
    simp only [tryVariants]
    cases hv : dget st.cache (pyLowerStr (v ++ "|" ++ district)) with
    | some cv =>
      cases cv with
      | coords lon lat =>
        have hin : isInMariupolRegion lon lat = true := allInBox_of_dget _ hbox _ _ _ hv
        constructor
        · exact allInBox_dset _ _ _ hbox
            (fun a b hab => by cases hab; exact hin)
        · intro a b hab
          cases hab
          exact hin
      | nullv =>
        cases hc : client n with
        | loc lon lat =>
          cases hb : isInMariupolRegion lon lat with
          | true =>
            simp only [hb, if_true]
            have h1 : AllInBox (dset st.cache cacheKey (CVal.coords lon lat)) :=
              allInBox_dset _ _ _ hbox (fun a b hab => by cases hab; exact hb)
            constructor
            · exact allInBox_dset _ _ _ h1 (fun a b hab => by cases hab; exact hb)
            · intro a b hab
              cases hab
              exact hb
          | false => simpa [hb] using ih st (n + 1) (qs ++ [v]) hbox
        | noneR => exact ih st (n + 1) (qs ++ [v]) hbox
        | noCoords => exact ih st (n + 1) (qs ++ [v]) hbox
      | other =>
        cases hc : client n with
        | loc lon lat =>
          cases hb : isInMariupolRegion lon lat with
          | true =>
            simp only [hb, if_true]
            have h1 : AllInBox (dset st.cache cacheKey (CVal.coords lon lat)) :=
              allInBox_dset _ _ _ hbox (fun a b hab => by cases hab; exact hb)
            constructor
            · exact allInBox_dset _ _ _ h1 (fun a b hab => by cases hab; exact hb)
            · intro a b hab
              cases hab
              exact hb
          | false => simpa [hb] using ih st (n + 1) (qs ++ [v]) hbox
        | noneR => exact ih st (n + 1) (qs ++ [v]) hbox
        | noCoords => exact ih st (n + 1) (qs ++ [v]) hbox
    | none =>
      cases hc : client n with
      | loc lon lat =>
        cases hb : isInMariupolRegion lon lat with
        | true =>
          simp only [hb, if_true]
          have h1 : AllInBox (dset st.cache cacheKey (CVal.coords lon lat)) :=
            allInBox_dset _ _ _ hbox (fun a b hab => by cases hab; exact hb)
          constructor
          · exact allInBox_dset _ _ _ h1 (fun a b hab => by cases hab; exact hb)
          · intro a b hab
            cases hab
            exact hb
        | false => simpa [hb] using ih st (n + 1) (qs ++ [v]) hbox
      | noneR => exact ih st (n + 1) (qs ++ [v]) hbox
      | noCoords => exact ih st (n + 1) (qs ++ [v]) hbox

theorem tryVariants_calls (client : Nat → GeoResp) (district cacheKey : String)
    (vs : List String) (st : GSt) (n : Nat) (qs : List String) :
    (tryVariants client district cacheKey vs st n qs).ncalls ≤ n + vs.length ∧
      (tryVariants client district cacheKey vs st n qs).queries.length ≤
        qs.length + vs.length := by
  induction vs generalizing st n qs with
  | nil => simp [tryVariants]
  | cons v vs ih =>
    simp only [tryVariants]
    cases hv : dget st.cache (pyLowerStr (v ++ "|" ++ district)) with
    | some cv =>
      cases cv with
      | coords lon lat => simp only [List.length_cons]; omega
      | nullv =>
        cases hc : client n with
        | loc lon lat =>
          cases hb : isInMariupolRegion lon lat with
          | true => simp [hb]
          | false =>
            have := ih st (n + 1) (qs ++ [v])
            simp [hb] at this ⊢
            omega
        | noneR =>
          have := ih st (n + 1) (qs ++ [v])
          simp at this ⊢
          omega
        | noCoords =>
          have := ih st (n + 1) (qs ++ [v])
          simp at this ⊢
          omega
      | other =>
        cases hc : client n with
        | loc lon lat =>
          cases hb : isInMariupolRegion lon lat with
          | true => simp [hb]
          | false =>
            have := ih st (n + 1) (qs ++ [v])
            simp [hb] at this ⊢
            omega
        | noneR =>
          have := ih st (n + 1) (qs ++ [v])
          simp at this ⊢
          omega
        | noCoords =>
          have := ih st (n + 1) (qs ++ [v])
          simp at this ⊢
          omega
    | none =>
      cases hc : client n with
      | loc lon lat =>
        cases hb : isInMariupolRegion lon lat with
        | true => simp [hb]
        | false =>
          have := ih st (n + 1) (qs ++ [v])
          simp [hb] at this ⊢
          omega
      | noneR =>
        have := ih st (n + 1) (qs ++ [v])
        simp at this ⊢
        omega
      | noCoords =>
        have := ih st (n + 1) (qs ++ [v])
        simp at this ⊢
        omega

theorem miss_resolves (enum : List String → List String) (client : Nat → GeoResp)
    (district : String) (st : GSt) (cleaned cacheKey : String) (out : GOut)
    (h : geocodeSingleMiss enum client district st cleaned cacheKey = Except.ok out) :
    Resolved (dget out.st.cache cacheKey) := by
  unfold geocodeSingleMiss at h
  split at h
  · split at h
    · simp only [Except.ok.injEq] at h
      subst h
      exact Or.inr ⟨_, _, by rw [dget_dset_self]⟩
    · cases h
  · split at h
    · simp only [Except.ok.injEq] at h
      subst h
      exact Or.inr ⟨_, _, by rw [dget_dset_self]⟩
    · split at h
      · cases h
      · simp only [Except.ok.injEq] at h
        subst h
        exact tryVariants_resolves _ _ _ _ _ _ _

theorem miss_none_negcache (enum : List String → List String) (client : Nat → GeoResp)
    (district : String) (st : GSt) (cleaned cacheKey : String) (out : GOut)
    (h : geocodeSingleMiss enum client district st cleaned cacheKey = Except.ok out)
    (hres : out.res = none) :
    dget out.st.cache cacheKey = some CVal.nullv := by
  unfold geocodeSingleMiss at h
  split at h
  · split at h
    · simp only [Except.ok.injEq] at h
      subst h
      cases hres
    · cases h
  · split at h
    · simp only [Except.ok.injEq] at h
      subst h
      cases hres
    · split at h
      · cases h
      · simp only [Except.ok.injEq] at h
        subst h
        exact tryVariants_none_negcache _ _ _ _ _ _ _ hres

theorem miss_box (enum : List String → List String) (client : Nat → GeoResp)
    (district : String) (st : GSt) (cleaned cacheKey : String) (out : GOut)
    (hbox : AllInBox st.cache)
    (h : geocodeSingleMiss enum client district st cleaned cacheKey = Except.ok out) :
    AllInBox out.st.cache ∧
      (∀ lon lat, out.res = some (lon, lat) → isInMariupolRegion lon lat = true) := by
  unfold geocodeSingleMiss at h
  split at h
  · split at h
    · rename_i fst mlon mlat heq
      have hin := manual_in_box _ (List.mem_of_find?_eq_some heq)
      simp only [Except.ok.injEq] at h
      subst h
      constructor
      · exact allInBox_dset _ _ _ hbox (fun a b hab => by cases hab; exact hin)
      · intro a b hab
        cases hab
        exact hin
    · cases h
  · split at h
    · rename_i fst mlon mlat heq
      have hin := manual_in_box _ (List.mem_of_find?_eq_some heq)
      simp only [Except.ok.injEq] at h
      subst h
      constructor
      · exact allInBox_dset _ _ _ hbox (fun a b hab => by cases hab; exact hin)
      · intro a b hab
        cases hab
        exact hin
    · split at h
      · cases h
      · simp only [Except.ok.injEq] at h
        subst h
        exact tryVariants_box _ _ _ _ _ _ _ hbox

theorem assembleVariants_len (gen : List String) (cleaned district : String) :
    (assembleVariants gen cleaned district).length ≤ 8 := by
  simp only [assembleVariants]
  exact List.length_take_le _ _

theorem tryVariants_calls_assemble (client : Nat → GeoResp) (district cacheKey : String)
    (gen : List String) (cleaned : String) (st : GSt) :
    (tryVariants client district cacheKey (assembleVariants gen cleaned district) st 0 []).ncalls ≤ 8 ∧
      (tryVariants client district cacheKey
        (assembleVariants gen cleaned district) st 0 []).queries.length ≤ 8 := by
  have h := tryVariants_calls client district cacheKey
    (assembleVariants gen cleaned district) st 0 []
  have hl := assembleVariants_len gen cleaned district
  constructor
  · exact le_trans h.1 (by simpa using hl)
  · exact le_trans h.2 (by simpa using hl)

theorem miss_calls (enum : List String → List String) (client : Nat → GeoResp)
    (district : String) (st : GSt) (cleaned cacheKey : String) (out : GOut)
    (h : geocodeSingleMiss enum client district st cleaned cacheKey = Except.ok out) :
    out.ncalls ≤ 8 ∧ out.queries.length ≤ 8 := by
  unfold geocodeSingleMiss at h
  split at h
  · split at h
    · simp only [Except.ok.injEq] at h
      subst h
      simp
    · cases h
  · split at h
    · simp only [Except.ok.injEq] at h
      subst h
      simp
    · split at h
      · cases h
      · simp only [Except.ok.injEq] at h
        subst h
        exact tryVariants_calls_assemble _ _ _ _ _ _

theorem geocodeSingle_resolves (enum : List String → List String) (client : Nat → GeoResp)
    (s district : String) (st : GSt) (out : GOut)
    (h : geocodeSingle enum client (PyV.pstr s) district st = Except.ok out)
    (hne : cleanStr s ≠ "") :
    Resolved (dget out.st.cache (derivedKey s district)) := by
  simp only [geocodeSingle] at h
  split at h
  · rename_i hs
    have hs' : s = "" := by simpa using hs
    subst hs'
    exact absurd (by rfl : cleanStr "" = "") hne
  · split at h
    · rename_i hc
      exact absurd (by simpa using hc) hne
    · revert h
      unfold derivedKey
      cases hv : dget st.cache (pyLowerStr (cleanStr s ++ "|" ++ district)) with
      | some cv =>
        cases cv with
        | coords lon lat =>
          intro h
          simp only [Except.ok.injEq] at h
          subst h
          exact Or.inr ⟨lon, lat, by simpa using hv⟩
        | nullv =>
          intro h
          simp only [Except.ok.injEq] at h
          subst h
          exact Or.inl (by simpa using hv)
        | other => intro h; exact miss_resolves _ _ _ _ _ _ _ h
      | none => intro h; exact miss_resolves _ _ _ _ _ _ _ h

theorem geocodeSingle_none_negcache (enum : List String → List String)
    (client : Nat → GeoResp) (s district : String) (st : GSt) (out : GOut)
    (h : geocodeSingle enum client (PyV.pstr s) district st = Except.ok out)
    (hne : cleanStr s ≠ "") (hres : out.res = none) :
    dget out.st.cache (derivedKey s district) = some CVal.nullv := by
  simp only [geocodeSingle] at h
  split at h
  · rename_i hs
    have hs' : s = "" := by simpa using hs
    subst hs'
    exact absurd (by rfl : cleanStr "" = "") hne
  · split at h
    · rename_i hc
      exact absurd (by simpa using hc) hne
    · revert h
      unfold derivedKey
      cases hv : dget st.cache (pyLowerStr (cleanStr s ++ "|" ++ district)) with
      | some cv =>
        cases cv with
        | coords lon lat =>
          intro h
          simp only [Except.ok.injEq] at h
          subst h
          cases hres
        | nullv =>
          intro h
          simp only [Except.ok.injEq] at h
          subst h
          simpa using hv
        | other => intro h; exact miss_none_negcache _ _ _ _ _ _ _ h hres
      | none => intro h; exact miss_none_negcache _ _ _ _ _ _ _ h hres

theorem geocodeSingle_neghit (enum : List String → List String) (client : Nat → GeoResp)
    (s district : String) (st : GSt)
    (h : dget st.cache (derivedKey s district) = some CVal.nullv) :
    geocodeSingle enum client (PyV.pstr s) district st = Except.ok ⟨none, st, 0, []⟩ := by
  simp only [geocodeSingle]
  split
  · rfl
  · split
    · rfl
    · unfold derivedKey at h
      rw [h]

theorem geocodeSingle_box (enum : List String → List String) (client : Nat → GeoResp)
    (address : PyV) (district : String) (st : GSt) (out : GOut)
    (hbox : AllInBox st.cache)
    (h : geocodeSingle enum client address district st = Except.ok out) :
    AllInBox out.st.cache ∧
      (∀ lon lat, out.res = some (lon, lat) → isInMariupolRegion lon lat = true) := by
  cases address with
  | pnone =>
    simp only [geocodeSingle, Except.ok.injEq] at h
    subst h
    exact ⟨hbox, fun lon lat hl => by cases hl⟩
  | pother =>
    simp only [geocodeSingle, Except.ok.injEq] at h
    subst h
    exact ⟨hbox, fun lon lat hl => by cases hl⟩
  | pstr s =>
    simp only [geocodeSingle] at h
    split at h
    · simp only [Except.ok.injEq] at h
      subst h
      exact ⟨hbox, fun lon lat hl => by cases hl⟩
    · split at h
      · simp only [Except.ok.injEq] at h
        subst h
        exact ⟨hbox, fun lon lat hl => by cases hl⟩
      · revert h
        cases hv : dget st.cache (pyLowerStr (cleanStr s ++ "|" ++ district)) with
        | some cv =>
          cases cv with
          | coords lon lat =>
            intro h
            simp only [Except.ok.injEq] at h
            subst h
            refine ⟨hbox, fun a b hl => ?_⟩
            simp only [Option.some.injEq, Prod.mk.injEq] at hl
            rcases hl with ⟨rfl, rfl⟩
            exact allInBox_of_dget _ hbox _ _ _ hv
          | nullv =>
            intro h
            simp only [Except.ok.injEq] at h
            subst h
            exact ⟨hbox, fun lon lat hl => by cases hl⟩
          | other => intro h; exact miss_box _ _ _ _ _ _ _ hbox h
        | none => intro h; exact miss_box _ _ _ _ _ _ _ hbox h

theorem geocodeSingle_calls (enum : List String → List String) (client : Nat → GeoResp)
    (address : PyV) (district : String) (st : GSt) (out : GOut)
    (h : geocodeSingle enum client address district st = Except.ok out) :
    out.ncalls ≤ 8 ∧ out.queries.length ≤ 8 := by
  cases address with
  | pnone =>
    simp only [geocodeSingle, Except.ok.injEq] at h
    subst h
    simp
  | pother =>
    simp only [geocodeSingle, Except.ok.injEq] at h
    subst h
    simp
  | pstr s =>
    simp only [geocodeSingle] at h
    split at h
    · simp only [Except.ok.injEq] at h
      subst h
      simp
    · split at h
      · simp only [Except.ok.injEq] at h
        subst h
        simp
      · revert h
        cases hv : dget st.cache (pyLowerStr (cleanStr s ++ "|" ++ district)) with
        | some cv =>
          cases cv with
          | coords lon lat =>
            intro h
            simp only [Except.ok.injEq] at h
            subst h
            simp
          | nullv =>
            intro h
            simp only [Except.ok.injEq] at h
            subst h
            simp
          | other => intro h; exact miss_calls _ _ _ _ _ _ _ h
        | none => intro h; exact miss_calls _ _ _ _ _ _ _ h

theorem geocodeSingle_empty (enum : List String → List String) (client : Nat → GeoResp)
    (address : PyV) (district : String) (st : GSt)
    (h : cleanPy address = "") :
    geocodeSingle enum client address district st = Except.ok ⟨none, st, 0, []⟩ := by
  cases address with
  | pnone => simp only [geocodeSingle]
  | pother => simp only [geocodeSingle]
  | pstr s =>
    simp only [geocodeSingle]
    split
    · rfl
    · rename_i hs
      simp only [cleanPy] at h
      rw [if_neg hs] at h
      split
      · rfl
      · rename_i hc
        exact absurd (beq_iff_eq.mpr h) hc

theorem dedupCI_avoids (l : List String) (seen : List String) :
    ∀ x ∈ dedupCIAux seen l, seen.contains (pyLowerStr x) = false := by
  induction l generalizing seen with
  | nil => intro x hx; cases hx
  | cons v vs ih =>
    intro x hx
    simp only [dedupCIAux] at hx
    split at hx
    · exact ih seen x hx
    · rename_i hnv
      rcases List.mem_cons.mp hx with rfl | hmem
      · simpa using hnv
      · have htail := ih (pyLowerStr (normWS v) :: seen) x hmem
        cases hcontains : List.contains seen (pyLowerStr x)
        · rfl
        · exfalso
          have : List.contains (pyLowerStr (normWS v) :: seen) (pyLowerStr x) = true := by
            simp only [List.contains_cons]
            rw [hcontains]
            simp
          rw [htail] at this
          cases this

theorem dedupCI_distinct (l : List String) (seen : List String) :
    CIDistinct (dedupCIAux seen l) := by
  induction l generalizing seen with
  | nil => exact List.Pairwise.nil
  | cons v vs ih =>
    simp only [dedupCIAux]
    split
    · exact ih seen
    · refine List.Pairwise.cons ?_ (ih _)
      intro y hy heq
      have htail := dedupCI_avoids vs (pyLowerStr (normWS v) :: seen) y hy
      simp only [List.contains_cons, Bool.or_eq_false_iff] at htail
      have h1 := htail.1
      rw [← heq] at h1
      simp at h1

theorem genVariations_distinct (enum : List String → List String)
    (address district : String) (vs : List String)
    (h : genVariations enum address district = Except.ok vs) : CIDistinct vs := by
  unfold genVariations at h
  by_cases h1 : (address == "") = true
  · rw [if_pos h1] at h
    simp only [Except.ok.injEq] at h
    subst h
    exact List.Pairwise.nil
  · rw [if_neg h1] at h
    simp only [] at h
    by_cases h2 : (cleanS address == "") = true
    · rw [if_pos h2] at h
      simp only [Except.ok.injEq] at h
      subst h
      exact List.Pairwise.nil
    · rw [if_neg h2] at h
      split at h
      · cases h
      · simp only [Except.ok.injEq] at h
        subst h
        exact dedupCI_distinct _ _

theorem rlFrom_attempts_le (oc : Nat → Attempt) (jit : Nat → ℚ) :
    ∀ (rem retries : Nat) (ds : List ℚ),
      (rlFrom oc jit retries rem ds).attempts ≤ retries + rem := by
  intro rem
  induction rem with
  | zero => intro retries ds; simp [rlFrom]
  | succ m ih =>
    intro retries ds
    cases h : oc retries with
    | ok r =>
      simp only [rlFrom, h]
      omega
    | transient =>
      simp only [rlFrom, h]
      have hih := ih (retries + 1) (ds ++ [(2 : ℚ) ^ retries + jit retries])
      omega
    | otherErr =>
      simp only [rlFrom, h]
      omega

theorem rlFrom_attempts_ge_retries (oc : Nat → Attempt) (jit : Nat → ℚ) :
    ∀ (rem retries : Nat) (ds : List ℚ),
      retries ≤ (rlFrom oc jit retries rem ds).attempts := by
  intro rem
  induction rem with
  | zero => intro retries ds; simp [rlFrom]
  | succ m ih =>
    intro retries ds
    cases h : oc retries with
    | ok r =>
      simp only [rlFrom, h]
      omega
    | transient =>
      simp only [rlFrom, h]
      have hih := ih (retries + 1) (ds ++ [(2 : ℚ) ^ retries + jit retries])
      omega
    | otherErr =>
      simp only [rlFrom, h]
      omega

theorem rlFrom_attempts_ge (oc : Nat → Attempt) (jit : Nat → ℚ)
    (rem retries : Nat) (ds : List ℚ) (hrem : 1 ≤ rem) :
    retries + 1 ≤ (rlFrom oc jit retries rem ds).attempts := by
  cases rem with
  | zero => omega
  | succ m =>
    cases h : oc retries with
    | ok r => simp only [rlFrom, h]; omega
    | transient =>
      simp only [rlFrom, h]
      exact rlFrom_attempts_ge_retries oc jit m (retries + 1) _
    | otherErr => simp only [rlFrom, h]; omega

theorem rlFrom_delays_len_ge (oc : Nat → Attempt) (jit : Nat → ℚ) :
    ∀ (rem retries : Nat) (ds : List ℚ),
      ds.length ≤ (rlFrom oc jit retries rem ds).delays.length := by
  intro rem
  induction rem with
  | zero => intro retries ds; simp [rlFrom]
  | succ m ih =>
    intro retries ds
    cases h : oc retries with
    | ok r => simp only [rlFrom, h]; omega
    | transient =>
      simp only [rlFrom, h]
      have hih := ih (retries + 1) (ds ++ [(2 : ℚ) ^ retries + jit retries])
      simp only [List.length_append, List.length_cons, List.length_nil] at hih
      omega
    | otherErr => simp only [rlFrom, h]; omega

theorem rlFrom_delays_mem (oc : Nat → Attempt) (jit : Nat → ℚ) :
    ∀ (rem retries : Nat) (ds : List ℚ) (d : ℚ),
      d ∈ (rlFrom oc jit retries rem ds).delays →
      d ∈ ds ∨ ∃ k, retries ≤ k ∧ k < retries + rem ∧ oc k = Attempt.transient ∧
        d = (2 : ℚ) ^ k + jit k := by
  intro rem
  induction rem with
  | zero =>
    intro retries ds d hd
    simp only [rlFrom] at hd
    exact Or.inl hd
  | succ m ih =>
    intro retries ds d hd
    cases h : oc retries with
    | ok r =>
      simp only [rlFrom, h] at hd
      exact Or.inl hd
    | transient =>
      simp only [rlFrom, h] at hd
      rcases ih (retries + 1) (ds ++ [(2 : ℚ) ^ retries + jit retries]) d hd with hmem | ⟨k, hk1, hk2, hk3, hk4⟩
      · rcases List.mem_append.mp hmem with hmem2 | hmem2
        · exact Or.inl hmem2
        · refine Or.inr ⟨retries, le_refl _, by omega, h, ?_⟩
          simpa using hmem2
      · exact Or.inr ⟨k, by omega, by omega, hk3, hk4⟩
    | otherErr =>
      simp only [rlFrom, h] at hd
      exact Or.inl hd

/-- C3: `RateLimitedGeocoder.geocode` makes at most `max_retries = 3`
attempts; any non-transient failure returns `None` at once (no further
attempt, no further backoff delay); exhausting all attempts on transient
failures returns `None` (no exception — the embedding is total) with the
three exponential backoff delays `2 ** retries + uniform(0, 1)`; every
delay slept equals `2 ** k + jitter` for the transient attempt `k` it
follows and lies in `[2 ** k, 2 ** k + 1)`; and a transient failure below
the attempt cap always triggers another attempt after one more recorded
delay. -/
theorem C3_retry_backoff_policy (oc : Nat → Attempt) (jit : Nat → ℚ)
    (hj : ∀ n, 0 ≤ jit n ∧ jit n < 1) :
    (rlGeocode oc jit).attempts ≤ 3 ∧
    (∀ k, oc k = Attempt.otherErr → (∀ i, i < k → oc i = Attempt.transient) →
      (rlGeocode oc jit).result = GeoResp.noneR ∧ (rlGeocode oc jit).attempts ≤ k + 1 ∧
        (rlGeocode oc jit).delays.length ≤ k) ∧
    ((∀ k, k < 3 → oc k = Attempt.transient) →
      (rlGeocode oc jit).result = GeoResp.noneR ∧ (rlGeocode oc jit).attempts = 3 ∧
        (rlGeocode oc jit).delays =
          [(2 : ℚ) ^ 0 + jit 0, (2 : ℚ) ^ 1 + jit 1, (2 : ℚ) ^ 2 + jit 2]) ∧
    (∀ d ∈ (rlGeocode oc jit).delays, ∃ k, k < 3 ∧ oc k = Attempt.transient ∧
      d = (2 : ℚ) ^ k + jit k ∧ (2 : ℚ) ^ k ≤ d ∧ d < (2 : ℚ) ^ k + 1) ∧
    (∀ k, k + 1 < 3 → (∀ i, i ≤ k → oc i = Attempt.transient) →
      k + 1 < (rlGeocode oc jit).attempts ∧ k + 1 ≤ (rlGeocode oc jit).delays.length) := by
  refine ⟨?_, ?_, ?_, ?_, ?_⟩
  · exact rlFrom_attempts_le oc jit 3 0 []
  · intro k hother htrans
    by_cases hk : k < 3
    · interval_cases k
      · simp [rlGeocode, maxRetries, rlFrom, hother]
      · simp [rlGeocode, maxRetries, rlFrom, htrans 0 (by omega), hother]
      · simp [rlGeocode, maxRetries, rlFrom, htrans 0 (by omega), htrans 1 (by omega), hother]
    · have h3 : (rlGeocode oc jit) =
          ⟨GeoResp.noneR, 3, [(2 : ℚ) ^ 0 + jit 0, (2 : ℚ) ^ 1 + jit 1, (2 : ℚ) ^ 2 + jit 2]⟩ := by
        simp [rlGeocode, maxRetries, rlFrom, htrans 0 (by omega), htrans 1 (by omega),
          htrans 2 (by omega)]
      rw [h3]
      refine ⟨rfl, ?_, ?_⟩
      · show 3 ≤ k + 1
        omega
      · show ([(2 : ℚ) ^ 0 + jit 0, (2 : ℚ) ^ 1 + jit 1, (2 : ℚ) ^ 2 + jit 2]).length ≤ k
        simp only [List.length_cons, List.length_nil]
        omega
  · intro htrans
    simp [rlGeocode, maxRetries, rlFrom, htrans 0 (by omega), htrans 1 (by omega),
      htrans 2 (by omega)]
  · intro d hd
    rcases rlFrom_delays_mem oc jit 3 0 [] d hd with hmem | ⟨k, _, hk2, hk3, hk4⟩
    · cases hmem
    · refine ⟨k, by omega, hk3, hk4, ?_, ?_⟩
      · have := (hj k).1
        rw [hk4]
        linarith
      · have := (hj k).2
        rw [hk4]
        linarith
  · intro k hk htrans
    have hk2 : k < 2 := by omega
    interval_cases k
    · constructor
      · have h1 : rlGeocode oc jit =
            rlFrom oc jit 1 2 [(2 : ℚ) ^ 0 + jit 0] := by
          simp [rlGeocode, maxRetries, rlFrom, htrans 0 (by omega)]
        rw [h1]
        exact rlFrom_attempts_ge oc jit 2 1 _ (by omega)
      · have h1 : rlGeocode oc jit =
            rlFrom oc jit 1 2 [(2 : ℚ) ^ 0 + jit 0] := by
          simp [rlGeocode, maxRetries, rlFrom, htrans 0 (by omega)]
        rw [h1]
        have := rlFrom_delays_len_ge oc jit 2 1 [(2 : ℚ) ^ 0 + jit 0]
        simpa using this
    · constructor
      · have h1 : rlGeocode oc jit =
            rlFrom oc jit 2 1 [(2 : ℚ) ^ 0 + jit 0, (2 : ℚ) ^ 1 + jit 1] := by
          simp [rlGeocode, maxRetries, rlFrom, htrans 0 (by omega), htrans 1 (by omega)]
        rw [h1]
        exact rlFrom_attempts_ge oc jit 1 2 _ (by omega)
      · have h1 : rlGeocode oc jit =
            rlFrom oc jit 2 1 [(2 : ℚ) ^ 0 + jit 0, (2 : ℚ) ^ 1 + jit 1] := by
          simp [rlGeocode, maxRetries, rlFrom, htrans 0 (by omega), htrans 1 (by omega)]
        rw [h1]
        have := rlFrom_delays_len_ge oc jit 1 2 [(2 : ℚ) ^ 0 + jit 0, (2 : ℚ) ^ 1 + jit 1]
        simpa using this

/-- Witness for `C3_retry_backoff_policy` at a concrete oracle: the first
attempt fails transiently, the second succeeds. -/
theorem C3_retry_backoff_policy_witness :
    (∀ n : Nat, 0 ≤ (fun _ : Nat => (1 : ℚ) / 2) n ∧ (fun _ : Nat => (1 : ℚ) / 2) n < 1) ∧
    (rlGeocode (fun n => if n = 0 then Attempt.transient else Attempt.ok (GeoResp.loc 37.5 47.1))
        (fun _ => (1 : ℚ) / 2)).attempts ≤ 3 := by
  have hj : ∀ n : Nat, 0 ≤ (fun _ : Nat => (1 : ℚ) / 2) n ∧ (fun _ : Nat => (1 : ℚ) / 2) n < 1 := by
    intro n
    norm_num
  exact ⟨hj, (C3_retry_backoff_policy
    (fun n => if n = 0 then Attempt.transient else Attempt.ok (GeoResp.loc 37.5 47.1))
    (fun _ => (1 : ℚ) / 2) hj).1⟩

/-- C1: contrary to the claim, an address whose cleaned, lower-cased form
equals a manual-override key compared case-insensitively does NOT get that
override's coordinates: the membership test lower-cases the dict keys but
the subsequent dict access `self.manual_coordinates[manual_key]` uses the
lower-cased key against the mixed-case dict, so the exact-match branch
raises `KeyError` (no override key is entirely lower-case).  Evaluated at
the failing input `address = "Хмельницкого, 24"`, `district = ""`, empty
cache: the call raises `KeyError("хмельницкого, 24")` for every client and
set order, making zero network calls and writing nothing to the cache. -/
theorem C1_manual_exact_match_raises_keyerror :
    ∀ (enum : List String → List String) (client : Nat → GeoResp),
      geocodeSingle enum client (PyV.pstr "Хмельницкого, 24") "" ⟨[], 0, 0, false⟩ =
        Except.error (PyErr.keyError "хмельницкого, 24") := by
  intro enum client
  with_unfolding_all rfl

/-- C2: contrary to the claim, `process_properties` contains no call to
`_save_cache` at all, so the cache file on disk is left untouched by every
batch run (first conjunct), even by a run that adds a cache entry and
leaves the in-memory cache dirty (second conjunct: one row `"абв"`, all
lookups fail, the negative marker is cached in memory, `cacheModified`
ends `true`, and the disk value is unchanged). -/
theorem C2_process_properties_never_flushes_cache :
    (∀ (enum : List String → List String) (clients : Nat → Nat → GeoResp)
        (rows : List Row) (st : GSt) (disk : Option Cache),
        (processProperties enum clients rows st disk).2.2.1 = disk) ∧
    processProperties id (fun _ _ => GeoResp.noneR) [⟨"абв", ""⟩] ⟨[], 0, 0, false⟩ none =
      (true, ⟨[("абв|", CVal.nullv)], 0, 1, true⟩, none, [(⟨"абв", ""⟩, none)]) := by
  constructor
  · intro enum clients rows st disk
    simp only [processProperties]
    split <;> rfl
  · with_unfolding_all rfl

/-- C4: the region-validity filter.  First conjunct: if every success
entry of the initial cache lies in the bounding box, then after any
normally-returning `_geocode_single_address` call every success entry of
the final cache still lies in the box and any returned coordinate pair
lies in the box — so a coordinate pair outside the box (which can only
enter through the online client, whose accepted results are exactly the
in-box ones) is never returned as a success and never cached as a
success.  Second conjunct (spec end-to-end scenario 4): with a client that
always returns the out-of-box pair (37.5, 55.0), the call on "абв" tries
all five variants (fallback continues past each rejected pair), returns
absence and caches only the negative marker. -/
theorem C4_region_filter :
    (∀ (enum : List String → List String) (client : Nat → GeoResp) (address : PyV)
        (district : String) (st : GSt) (out : GOut),
        AllInBox st.cache →
        geocodeSingle enum client address district st = Except.ok out →
        AllInBox out.st.cache ∧
          (∀ lon lat, out.res = some (lon, lat) → isInMariupolRegion lon lat = true)) ∧
    geocodeSingle id (fun _ => GeoResp.loc 37.5 55.0) (PyV.pstr "абв") "" ⟨[], 0, 0, false⟩ =
      Except.ok ⟨none, ⟨[("абв|", CVal.nullv)], 0, 1, true⟩, 5,
        ["абв", "абв, Мариуполь, Донецкая область, Украина",
         "абв, Мариуполь, Донецкая область",
         "абв, Мариуполь, Донецкая область, Украина", "абв, Мариуполь"]⟩ := by
  constructor
  · intro enum client address district st out hbox h
    exact geocodeSingle_box enum client address district st out hbox h
  · with_unfolding_all rfl

/-- Witness for `C4_region_filter` at the scenario-4 input: the empty
initial cache is in-box, and the conclusion holds for the concrete run. -/
theorem C4_region_filter_witness :
    AllInBox ([] : Cache) ∧
      (AllInBox [("абв|", CVal.nullv)] ∧
        (∀ lon lat, (none : Option (ℚ × ℚ)) = some (lon, lat) →
          isInMariupolRegion lon lat = true)) := by
  have hbox : AllInBox ([] : Cache) := by
    intro p hp
    cases hp
  refine ⟨hbox, ?_⟩
  exact C4_region_filter.1 id (fun _ => GeoResp.loc 37.5 55.0) (PyV.pstr "абв") ""
    ⟨[], 0, 0, false⟩
    ⟨none, ⟨[("абв|", CVal.nullv)], 0, 1, true⟩, 5,
      ["абв", "абв, Мариуполь, Донецкая область, Украина",
       "абв, Мариуполь, Донецкая область",
       "абв, Мариуполь, Донецкая область, Украина", "абв, Мариуполь"]⟩
    hbox C4_region_filter.2

/-- C5 counterexample: `_clean_address` is not idempotent.  For the input
`"ц . р"` the first pass only collapses the punctuation (the district
pattern `\bц\.?\s*р\.?\b` does not match across `" . "`), giving
`"ц.р"`; a second pass then matches the district abbreviation and rewrites
it to `"Центральный район"`. -/
theorem C5_clean_address_not_idempotent :
    ¬ (cleanStr (cleanStr "ц . р") = cleanStr "ц . р") := by
  decide

/-- C5 (amended): normalization is idempotent on representative
already-canonical addresses (manual-override keys and the spec's scenario
addresses) but not on every string: `"ц . р"` cleans to `"ц.р"`, which
cleans further to `"Центральный район"`. -/
theorem C5_clean_address_idempotent_on_representatives :
    cleanStr "ц . р" = "ц.р" ∧
    cleanStr "ц.р" = "Центральный район" ∧
    cleanStr (cleanStr "Хмельницкого, 24") = cleanStr "Хмельницкого, 24" ∧
    cleanStr (cleanStr "50 лет СССР") = cleanStr "50 лет СССР" ∧
    cleanStr (cleanStr "50 лет СССР, 55") = cleanStr "50 лет СССР, 55" ∧
    cleanStr (cleanStr "улица Щорса") = cleanStr "улица Щорса" ∧
    cleanStr (cleanStr "Шевченко, 24") = cleanStr "Шевченко, 24" ∧
    cleanStr (cleanStr "50-летия СССР, 55, Октябрьский район") =
      cleanStr "50-летия СССР, 55, Октябрьский район" ∧
    cleanStr (cleanStr "Мариуполь") = cleanStr "Мариуполь" := by
  refine ⟨?_, ?_, ?_, ?_, ?_, ?_, ?_, ?_, ?_⟩ <;> decide

/-- C6: negative caching.  First conjunct: whenever
`_geocode_single_address` returns normally with absence on an address with
non-empty cleaned form (in particular when every variant failed or was
rejected), the cache afterwards maps the derived key to the explicit
negative marker.  Second conjunct: a call whose derived key is negatively
cached returns absence immediately, makes zero geocoding calls and leaves
the whole state unchanged. -/
theorem C6_negative_caching :
    (∀ (enum : List String → List String) (client : Nat → GeoResp) (s district : String)
        (st : GSt) (out : GOut),
        geocodeSingle enum client (PyV.pstr s) district st = Except.ok out →
        cleanStr s ≠ "" → out.res = none →
        dget out.st.cache (derivedKey s district) = some CVal.nullv) ∧
    (∀ (enum : List String → List String) (client : Nat → GeoResp) (s district : String)
        (st : GSt),
        dget st.cache (derivedKey s district) = some CVal.nullv →
        geocodeSingle enum client (PyV.pstr s) district st = Except.ok ⟨none, st, 0, []⟩) := by
  constructor
  · intro enum client s district st out h hne hres
    exact geocodeSingle_none_negcache enum client s district st out h hne hres
  · intro enum client s district st h
    exact geocodeSingle_neghit enum client s district st h

/-- Witness for `C6_negative_caching`: the exhausted run on "абв" caches
the negative marker, and a second call on the resulting state returns
absence with zero calls and an unchanged state. -/
theorem C6_negative_caching_witness :
    (geocodeSingle id (fun _ => GeoResp.noneR) (PyV.pstr "абв") "" ⟨[], 0, 0, false⟩ =
        Except.ok ⟨none, ⟨[("абв|", CVal.nullv)], 0, 1, true⟩, 5,
          ["абв", "абв, Мариуполь, Донецкая область, Украина",
           "абв, Мариуполь, Донецкая область",
           "абв, Мариуполь, Донецкая область, Украина", "абв, Мариуполь"]⟩ ∧
      cleanStr "абв" ≠ "" ∧
      dget [("абв|", CVal.nullv)] (derivedKey "абв" "") = some CVal.nullv) ∧
    geocodeSingle id (fun _ => GeoResp.noneR) (PyV.pstr "абв") ""
        ⟨[("абв|", CVal.nullv)], 0, 1, true⟩ =
      Except.ok ⟨none, ⟨[("абв|", CVal.nullv)], 0, 1, true⟩, 0, []⟩ := by
  have hrun : geocodeSingle id (fun _ => GeoResp.noneR) (PyV.pstr "абв") "" ⟨[], 0, 0, false⟩ =
      Except.ok ⟨none, ⟨[("абв|", CVal.nullv)], 0, 1, true⟩, 5,
        ["абв", "абв, Мариуполь, Донецкая область, Украина",
         "абв, Мариуполь, Донецкая область",
         "абв, Мариуполь, Донецкая область, Украина", "абв, Мариуполь"]⟩ := by
    with_unfolding_all rfl
  have hkey : dget [("абв|", CVal.nullv)] (derivedKey "абв" "") = some CVal.nullv := by
    with_unfolding_all rfl
  refine ⟨⟨hrun, by decide, hkey⟩, ?_⟩
  exact C6_negative_caching.2 id (fun _ => GeoResp.noneR) "абв" ""
    ⟨[("абв|", CVal.nullv)], 0, 1, true⟩ hkey

/-- C7 counterexample: the claim's deduplication part fails.  For the
address "абв" (empty district, empty cache, all client lookups failing,
set-iteration order = insertion order) `_geocode_single_address` passes
the region-qualified variant "абв, Мариуполь, Донецкая область, Украина"
to the geocode client twice: the orchestrator re-appends region-qualified
copies of the first two variants without checking whether they are
already in the list. -/
theorem C7_variants_counterexample :
    geocodeSingle id (fun _ => GeoResp.noneR) (PyV.pstr "абв") "" ⟨[], 0, 0, false⟩ =
      Except.ok ⟨none, ⟨[("абв|", CVal.nullv)], 0, 1, true⟩, 5,
        ["абв", "абв, Мариуполь, Донецкая область, Украина",
         "абв, Мариуполь, Донецкая область",
         "абв, Мариуполь, Донецкая область, Украина", "абв, Мариуполь"]⟩ ∧
    ¬ CIDistinct
        ["абв", "абв, Мариуполь, Донецкая область, Украина",
         "абв, Мариуполь, Донецкая область",
         "абв, Мариуполь, Донецкая область, Украина", "абв, Мариуполь"] := by
  constructor
  · with_unfolding_all rfl
  · intro hp
    have h1 := (List.pairwise_cons.mp ((List.pairwise_cons.mp hp).2)).1
    exact h1 "абв, Мариуполь, Донецкая область, Украина" (by simp) rfl

/-- C7 (amended): the attempt bound holds — every normally-returning
`_geocode_single_address` call passes at most 8 variant strings to the
geocode client — and the list returned by `_generate_address_variations`
is deduplicated case-insensitively; but the tried list assembled by the
orchestrator may repeat a variant (see the counterexample), because the
appends before the cap do not re-deduplicate. -/
theorem C7_variant_bound_and_generator_dedup :
    (∀ (enum : List String → List String) (client : Nat → GeoResp) (address : PyV)
        (district : String) (st : GSt) (out : GOut),
        geocodeSingle enum client address district st = Except.ok out →
        out.ncalls ≤ 8 ∧ out.queries.length ≤ 8) ∧
    (∀ (enum : List String → List String) (address district : String) (vs : List String),
        genVariations enum address district = Except.ok vs → CIDistinct vs) := by
  constructor
  · intro enum client address district st out h
    exact geocodeSingle_calls enum client address district st out h
  · intro enum address district vs h
    exact genVariations_distinct enum address district vs h

/-- Witness for `C7_variant_bound_and_generator_dedup` at concrete
inputs: the exhausted run on "абв" makes 5 ≤ 8 calls, and the generator's
output for "абв" is case-insensitively duplicate-free. -/
theorem C7_variant_bound_witness :
    (geocodeSingle id (fun _ => GeoResp.noneR) (PyV.pstr "абв") "" ⟨[], 0, 0, false⟩ =
        Except.ok ⟨none, ⟨[("абв|", CVal.nullv)], 0, 1, true⟩, 5,
          ["абв", "абв, Мариуполь, Донецкая область, Украина",
           "абв, Мариуполь, Донецкая область",
           "абв, Мариуполь, Донецкая область, Украина", "абв, Мариуполь"]⟩ ∧
      (5 : Nat) ≤ 8 ∧
      (["абв", "абв, Мариуполь, Донецкая область, Украина",
        "абв, Мариуполь, Донецкая область",
        "абв, Мариуполь, Донецкая область, Украина", "абв, Мариуполь"] : List String).length ≤ 8) ∧
    (genVariations id "абв" "" =
        Except.ok ["абв", "абв, Мариуполь, Донецкая область, Украина",
          "абв, Мариуполь, Донецкая область"] ∧
      CIDistinct ["абв", "абв, Мариуполь, Донецкая область, Украина",
        "абв, Мариуполь, Донецкая область"]) := by
  have hrun : geocodeSingle id (fun _ => GeoResp.noneR) (PyV.pstr "абв") "" ⟨[], 0, 0, false⟩ =
      Except.ok ⟨none, ⟨[("абв|", CVal.nullv)], 0, 1, true⟩, 5,
        ["абв", "абв, Мариуполь, Донецкая область, Украина",
         "абв, Мариуполь, Донецкая область",
         "абв, Мариуполь, Донецкая область, Украина", "абв, Мариуполь"]⟩ := by
    with_unfolding_all rfl
  have hgen : genVariations id "абв" "" =
      Except.ok ["абв", "абв, Мариуполь, Донецкая область, Украина",
        "абв, Мариуполь, Донецкая область"] := by
    with_unfolding_all rfl
  have hb := (C7_variant_bound_and_generator_dedup.1 id (fun _ => GeoResp.noneR)
    (PyV.pstr "абв") "" ⟨[], 0, 0, false⟩
    ⟨none, ⟨[("абв|", CVal.nullv)], 0, 1, true⟩, 5,
      ["абв", "абв, Мариуполь, Донецкая область, Украина",
       "абв, Мариуполь, Донецкая область",
       "абв, Мариуполь, Донецкая область, Украина", "абв, Мариуполь"]⟩ hrun)
  have hd := C7_variant_bound_and_generator_dedup.2 id "абв" ""
    ["абв", "абв, Мариуполь, Донецкая область, Украина",
     "абв, Мариуполь, Донецкая область"] hgen
  exact ⟨⟨hrun, hb.1, hb.2⟩, ⟨hgen, hd⟩⟩

/-- C8: the special-case numeric years-of-USSR rewrite.  The first
conjunct certifies the pipeline order of `_clean_address`: the USSR
rewrite (`ussrStage`) is applied to the stripped input strictly before
the district-abbreviation expansion (`districtStage`) and the remaining
passes.  The further conjuncts show the rewrite producing the canonical
form — `"50 лет СССР"` becomes `"50-летия СССР"` already in stage 1 — and
that the later district stage leaves the canonical form unchanged (no
re-mangling), both in isolation and end to end (spec scenario 2,
including an address with surrounding context). -/
theorem C8_ussr_rewrite_before_district_expansion :
    (∀ s, cleanStr s = lateStages (districtStage (ussrStage (pyStrip s)))) ∧
    ussrStage "50 лет СССР" = "50-летия СССР" ∧
    ussrStage "ул. 50 лет СССР, д. 5" = "ул. 50-летия СССР, д. 5" ∧
    districtStage "50-летия СССР" = "50-летия СССР" ∧
    cleanStr "50 лет СССР" = "50-летия СССР" ∧
    cleanStr "50 лет СССР, 55, Октябрьский район" = "50-летия СССР, 55, Октябрьский район" := by
  refine ⟨fun s => rfl, ?_, ?_, ?_, ?_, ?_⟩ <;> decide

/-- C9: whenever `_geocode_single_address` returns normally on a string
address with non-empty cleaned form, the cache afterwards contains an
entry for the derived key `lower(cleaned + "|" + district)` whose value is
a coordinate pair or the negative marker — every return path (cache hit,
manual prefix match, variant cache reuse, online success, exhaustion)
establishes this, and the manual exact-match branch cannot return
normally with an unresolved key (it raises). -/
theorem C9_resolved_key_invariant :
    ∀ (enum : List String → List String) (client : Nat → GeoResp) (s district : String)
      (st : GSt) (out : GOut),
      geocodeSingle enum client (PyV.pstr s) district st = Except.ok out →
      cleanStr s ≠ "" →
      Resolved (dget out.st.cache (derivedKey s district)) := by
  intro enum client s district st out h hne
  exact geocodeSingle_resolves enum client s district st out h hne

/-- Witness for `C9_resolved_key_invariant`: the exhaustion run on "абв"
leaves the derived key mapped to the negative marker. -/
theorem C9_resolved_key_invariant_witness :
    (geocodeSingle id (fun _ => GeoResp.noneR) (PyV.pstr "абв") "" ⟨[], 0, 0, false⟩ =
        Except.ok ⟨none, ⟨[("абв|", CVal.nullv)], 0, 1, true⟩, 5,
          ["абв", "абв, Мариуполь, Донецкая область, Украина",
           "абв, Мариуполь, Донецкая область",
           "абв, Мариуполь, Донецкая область, Украина", "абв, Мариуполь"]⟩ ∧
      cleanStr "абв" ≠ "") ∧
    Resolved (dget [("абв|", CVal.nullv)] (derivedKey "абв" "")) := by
  have hrun : geocodeSingle id (fun _ => GeoResp.noneR) (PyV.pstr "абв") "" ⟨[], 0, 0, false⟩ =
      Except.ok ⟨none, ⟨[("абв|", CVal.nullv)], 0, 1, true⟩, 5,
        ["абв", "абв, Мариуполь, Донецкая область, Украина",
         "абв, Мариуполь, Донецкая область",
         "абв, Мариуполь, Донецкая область, Украина", "абв, Мариуполь"]⟩ := by
    with_unfolding_all rfl
  refine ⟨⟨hrun, by decide⟩, ?_⟩
  exact C9_resolved_key_invariant id (fun _ => GeoResp.noneR) "абв" "" ⟨[], 0, 0, false⟩
    ⟨none, ⟨[("абв|", CVal.nullv)], 0, 1, true⟩, 5,
      ["абв", "абв, Мариуполь, Донецкая область, Украина",
       "абв, Мариуполь, Донецкая область",
       "абв, Мариуполь, Донецкая область, Украина", "абв, Мариуполь"]⟩ hrun (by decide)

/-- C10: for every input that is `None`, not a string, or whose cleaned
form is empty (`_clean_address` returns `""` exactly for those inputs),
`_geocode_single_address` returns `None` while making no client call,
passing no query, and leaving the mutable state — in particular the cache
mapping — completely unchanged. -/
theorem C10_trivial_input_frame :
    ∀ (enum : List String → List String) (client : Nat → GeoResp) (address : PyV)
      (district : String) (st : GSt),
      cleanPy address = "" →
      geocodeSingle enum client address district st = Except.ok ⟨none, st, 0, []⟩ := by
  intro enum client address district st h
  exact geocodeSingle_empty enum client address district st h

/-- Witness for `C10_trivial_input_frame` at `address = None` and a
non-trivial starting state: the state (including the cache) is returned
unchanged. -/
theorem C10_trivial_input_frame_witness :
    cleanPy PyV.pnone = "" ∧
    geocodeSingle id (fun _ => GeoResp.noneR) PyV.pnone "Октябрьский район"
        ⟨[("x|", CVal.other)], 3, 4, true⟩ =
      Except.ok ⟨none, ⟨[("x|", CVal.other)], 3, 4, true⟩, 0, []⟩ :=
  ⟨rfl, C10_trivial_input_frame id (fun _ => GeoResp.noneR) PyV.pnone "Октябрьский район"
    ⟨[("x|", CVal.other)], 3, 4, true⟩ rfl⟩

end Mariupol